import Mathlib

/-! DonationAlerts provider for goth: session, authorisation and profile decoding.

A shallow embedding of `providers/donationalerts/session.go` and
`providers/donationalerts/donationalerts.go`.

Methods with a pointer receiver are functions that return the receiver's new
value next to the Go results.  Calls that leave the process (the OAuth2 token
exchange, the HTTP request for the profile) and the wall clock are parameters
of the functions that use them.  Go strings are Lean strings, so they hold
valid UTF-8 only.
-/

namespace donationalerts

/-! ## Values shared with the libraries -/

/-- A Go `error` value. -/
inductive Error where
  /-- The result of `errors.New(msg)`. -/
  | errorString (msg : String)
  /-- The sentinel `io.EOF`. -/
  | EOF
  /-- A `*json.SyntaxError`. -/
  | SyntaxError (msg : String)
  /-- A `*json.UnmarshalTypeError`: JSON value `value` does not fit Go type `type`. -/
  | UnmarshalTypeError (value : String) (type : String)
  /-- A `*json.MarshalerError` wrapping the error of a `MarshalJSON` method. -/
  | MarshalerError (err : Error)
  /-- An error of package `time` (parsing). -/
  | ParseError (msg : String)
  /-- An error that comes from outside the process (network, remote server). -/
  | external (msg : String)
  deriving DecidableEq, Repr

/-- Go's `errors.New`. -/
def errors.New (msg : String) : Error := Error.errorString msg

/-- A `time.Time`, presented by what `Date()`, `Clock()`, `Nanosecond()` and
`Zone()` return for it, together with its monotonic clock reading if it has
one.  `offset` is the zone offset in seconds east of UTC. -/
structure Time where
  year : Int
  month : Nat
  day : Nat
  hour : Nat
  minute : Nat
  second : Nat
  nsec : Nat
  offset : Int
  mono : Option Int
  deriving DecidableEq, Repr

/-- The zero `time.Time`: January 1, year 1, 00:00:00 UTC. -/
def Time.zero : Time :=
  { year := 1, month := 1, day := 1, hour := 0, minute := 0, second := 0,
    nsec := 0, offset := 0, mono := none }

instance : Inhabited Time := ⟨Time.zero⟩

/-- An `*http.Client`, known by identity only. -/
structure Client where
  id : Nat
  deriving DecidableEq, Repr

/-- The client `http.DefaultClient`. -/
def DefaultClient : Client := ⟨0⟩

/-- Modelled from the spec: the function `goth.HTTPClientWithFallBack`, which is
not among the sources: the given client, or the process-wide default client
when none is given. -/
def HTTPClientWithFallBack (h : Option Client) : Client :=
  match h with
  | some c => c
  | none => DefaultClient

namespace oauth2

/-- An `oauth2.Endpoint`. -/
structure Endpoint where
  AuthURL : String
  TokenURL : String
  deriving DecidableEq, Repr

/-- An `oauth2.Config`. -/
structure Config where
  ClientID : String
  ClientSecret : String
  Endpoint : Endpoint
  RedirectURL : String
  Scopes : List String
  deriving DecidableEq, Repr

/-- An `oauth2.Token`. -/
structure Token where
  AccessToken : String
  TokenType : String
  RefreshToken : String
  Expiry : Time
  deriving DecidableEq, Repr

/-- The method `(*oauth2.Token).Valid`: the token is not nil, has an access
token and is not expired.  Whether a token is expired depends on the clock, so
`expired` is a parameter. -/
def Token.Valid (expired : Token → Bool) (t : Option Token) : Bool :=
  match t with
  | none => false
  | some t => t.AccessToken != "" && !expired t

/-- The struct `tokenJSON` of oauth2: the members of the token endpoint's
response that `doTokenRoundTrip` reads. -/
structure tokenJSON where
  AccessToken : String
  TokenType : String
  RefreshToken : String
  ExpiresIn : Int
  ErrorCode : String
  deriving DecidableEq, Repr

/-- What the token endpoint answers a token request with, as `doTokenRoundTrip`
of oauth2 meets it: `failed` when the request could not be sent or the body
could not be read or parsed, and otherwise the status code with the members of
the body. -/
inductive TokenResponse where
  | failed (e : Error)
  | body (status : Nat) (tj : tokenJSON)
  deriving DecidableEq, Repr

/-- The functions `doTokenRoundTrip` and `retrieveToken` of oauth2 on a
response: a failure is returned as it is; a status outside 200..299 or an
error code in the body is a `RetrieveError`; a body without `access_token` is
the error "oauth2: server response missing access_token"; otherwise the token
of the body, which expires `expires_in` seconds from now when that is not
zero.  `expiry` is `time.Now().Add` of a number of seconds. -/
def retrieveToken (expiry : Int → Time) (r : TokenResponse) : Option Token × Option Error :=
  match r with
  | .failed e => (none, some e)
  | .body status tj =>
    if status < 200 ∨ status > 299 ∨ tj.ErrorCode ≠ "" then
      (none, some (Error.external "oauth2: cannot fetch token"))
    else if tj.AccessToken = "" then
      (none, some (errors.New "oauth2: server response missing access_token"))
    else
      (some { AccessToken := tj.AccessToken, TokenType := tj.TokenType,
              RefreshToken := tj.RefreshToken,
              Expiry := if tj.ExpiresIn ≠ 0 then expiry tj.ExpiresIn else Time.zero },
       none)

/-- The method `(*oauth2.Config).Exchange`: the token of the response that the
token endpoint gives to the request for `code`.  `endpoint` is the token
endpoint as reached with the client. -/
def Config.Exchange (endpoint : Config → Client → String → TokenResponse)
    (expiry : Int → Time) (c : Config) (client : Client) (code : String) :
    Option Token × Option Error :=
  retrieveToken expiry (endpoint c client code)

end oauth2

/-! ## session.go -/

/-- Session stores data during the auth process with DonationAlerts. -/
structure Session where
  AuthURL : String
  AccessToken : String
  RefreshToken : String
  ExpiresAt : Time
  deriving DecidableEq, Repr

/-- The zero value `Session{}`. -/
def Session.zero : Session :=
  { AuthURL := "", AccessToken := "", RefreshToken := "", ExpiresAt := Time.zero }

/-- GetAuthURL returns the URL set by `BeginAuth`.  `NoAuthUrlErrorMessage` is
the constant `goth.NoAuthUrlErrorMessage`.  The result is the session after the
call, the URL and the error. -/
def Session.GetAuthURL (NoAuthUrlErrorMessage : String) (s : Session) :
    Session × String × Option Error :=
  if s.AuthURL = "" then
    (s, "", some (errors.New NoAuthUrlErrorMessage))
  else
    (s, s.AuthURL, none)

/-! ## donationalerts.go: construction -/

/-- ScopeUserShow provides access to obtain user profile information. -/
def ScopeUserShow : String := "oauth-user-show"
/-- ScopeDonationIndex provides access to obtain user donation alerts list. -/
def ScopeDonationIndex : String := "oauth-donation-index"
/-- ScopeDonationSubscribe provides access to subscribe for new donation alerts. -/
def ScopeDonationSubscribe : String := "oauth-donation-subscribe"

def authEndpoint : String := "https://www.donationalerts.com/oauth/authorize"
def tokenEndpoint : String := "https://www.donationalerts.com/oauth/token"
def profileEndpoint : String := "https://www.donationalerts.com/api/v1/user/oauth"

/-- Provider is the implementation of `goth.Provider` for DonationAlerts.  A
provider is always made by `New`, so `config` is never nil. -/
structure Provider where
  ClientKey : String
  Secret : String
  CallbackURL : String
  HTTPClient : Option Client
  config : oauth2.Config
  providerName : String
  ProfileEndpoint : String
  deriving DecidableEq, Repr

/-- The function `newConfig`: the OAuth2 configuration of a provider. -/
def newConfig (p : Provider) (scopes : List String) : oauth2.Config :=
  let config : oauth2.Config :=
    { ClientID := p.ClientKey
      ClientSecret := p.Secret
      Endpoint := { AuthURL := authEndpoint, TokenURL := tokenEndpoint }
      RedirectURL := p.CallbackURL
      Scopes := [] }
  if scopes.length > 0 then
    scopes.foldl (fun config s => { config with Scopes := config.Scopes ++ [s] }) config
  else
    { config with Scopes := [ScopeUserShow] }

/-- New creates a new DonationAlerts provider. -/
def New (clientKey secret callbackURL : String) (scopes : List String) : Provider :=
  let p : Provider :=
    { ClientKey := clientKey
      Secret := secret
      CallbackURL := callbackURL
      HTTPClient := none
      config := { ClientID := "", ClientSecret := "", Endpoint := ⟨"", ""⟩,
                  RedirectURL := "", Scopes := [] }
      providerName := "donationalerts"
      ProfileEndpoint := profileEndpoint }
  { p with config := newConfig p scopes }

/-- Name gets the name used to retrieve this provider. -/
def Provider.Name (p : Provider) : String := p.providerName

/-- SetName updates the name of the provider. -/
def Provider.SetName (p : Provider) (name : String) : Provider :=
  { p with providerName := name }

/-- Client to be used in all fetch operations. -/
def Provider.Client (p : Provider) : Client := HTTPClientWithFallBack p.HTTPClient

/-- RefreshTokenAvailable: the refresh token is provided by the auth provider. -/
def Provider.RefreshTokenAvailable (_p : Provider) : Bool := true

/-! ## session.go: Authorize -/

/-- Authorize completes the authorization with DonationAlerts and returns the
access token.  `Exchange` is `(*oauth2.Config).Exchange` run with the
provider's client: whatever pair of token and error it returns.  The result is
the session after the call, the returned string and the returned error. -/
def Session.Authorize
    (Exchange : oauth2.Config → Client → String → Option oauth2.Token × Option Error)
    (expired : oauth2.Token → Bool)
    (s : Session) (provider : Provider) (params : String → String) :
    Session × String × Option Error :=
  let p := provider
  let (token, err) := Exchange p.config p.Client (params "code")
  match err with
  | some e => (s, "", some e)
  | none =>
    if !oauth2.Token.Valid expired token then
      (s, "", some (errors.New "Invalid token received from provider"))
    else
      match token with
      | none => (s, "", err)
      | some token =>
        let s := { s with AccessToken := token.AccessToken }
        let s := { s with RefreshToken := token.RefreshToken }
        let s := { s with ExpiresAt := token.Expiry }
        (s, token.AccessToken, err)


/-! ## Library: strings, net/url and oauth2's authorisation URL -/

namespace strings

/-- Go's `strings.Join`. -/
def Join : List String → String → String
  | [], _ => ""
  | [x], _ => x
  | x :: y :: rest, sep => x ++ sep ++ Join (y :: rest) sep

/-- Go's `strings.Contains`: `substr` occurs within `s`. -/
def Contains (s substr : String) : Prop := substr.data <:+: s.data

/-- Go's `strings.HasPrefix`. -/
def HasPrefix (s pre : String) : Prop := pre.data <+: s.data

instance (s substr : String) : Decidable (Contains s substr) :=
  inferInstanceAs (Decidable (substr.data <:+: s.data))

instance (s pre : String) : Decidable (HasPrefix s pre) :=
  inferInstanceAs (Decidable (pre.data <+: s.data))

end strings

namespace url

/-- The bytes of the UTF-8 encoding of a character. -/
def utf8Bytes (c : Char) : List Nat :=
  let v := c.toNat
  if v < 0x80 then [v]
  else if v < 0x800 then [0xC0 + v / 64, 0x80 + v % 64]
  else if v < 0x10000 then [0xE0 + v / 4096, 0x80 + v / 64 % 64, 0x80 + v % 64]
  else [0xF0 + v / 262144, 0x80 + v / 4096 % 64, 0x80 + v / 64 % 64, 0x80 + v % 64]

/-- The bytes that `url.QueryEscape` leaves as they are: ASCII letters, digits
and the marks `-`, `_`, `.`, `~` (the negation of `shouldEscape` in mode
`encodeQueryComponent`). -/
def unreserved (b : Nat) : Bool :=
  (97 ≤ b && b ≤ 122) || (65 ≤ b && b ≤ 90) || (48 ≤ b && b ≤ 57)
    || b == 45 || b == 95 || b == 46 || b == 126

/-- One digit of `upperhex`, the table "0123456789ABCDEF". -/
def upperhex (n : Nat) : Char :=
  if n < 10 then Char.ofNat (48 + n) else Char.ofNat (55 + n)

/-- How `url.QueryEscape` writes one byte. -/
def escapeByte (b : Nat) : List Char :=
  if unreserved b then [Char.ofNat b]
  else if b = 32 then ['+']
  else ['%', upperhex (b / 16), upperhex (b % 16)]

/-- Go's `url.QueryEscape`. -/
def QueryEscape (s : String) : String :=
  String.mk (s.data.flatMap fun c => (utf8Bytes c).flatMap escapeByte)

/-- Go's `url.Values.Encode` for values that hold one string per key, listed
in the sorted order of their keys: `key=value` pairs, both escaped, joined by
`&`. -/
def Values.Encode (v : List (String × String)) : String :=
  strings.Join (v.map fun kv => QueryEscape kv.1 ++ "=" ++ QueryEscape kv.2) "&"

end url

/-- The method `(*oauth2.Config).AuthCodeURL` without options: the endpoint,
`?` (or `&` when the endpoint already has a query) and the encoded values
`response_type`, `client_id`, then `redirect_uri`, `scope` and `state` when
they are not empty.  The values are listed in the order of their keys, which is
the order in which `Encode` writes them. -/
def oauth2.Config.AuthCodeURL (c : oauth2.Config) (state : String) : String :=
  let v : List (String × String) :=
    [("client_id", c.ClientID)]
      ++ (if c.RedirectURL ≠ "" then [("redirect_uri", c.RedirectURL)] else [])
      ++ [("response_type", "code")]
      ++ (if c.Scopes.length > 0 then [("scope", strings.Join c.Scopes " ")] else [])
      ++ (if state ≠ "" then [("state", state)] else [])
  c.Endpoint.AuthURL
    ++ (if '?' ∈ c.Endpoint.AuthURL.data then "&" else "?")
    ++ url.Values.Encode v

/-! ## donationalerts.go: BeginAuth -/

/-- BeginAuth asks DonationAlerts for an authentication end-point. -/
def Provider.BeginAuth (p : Provider) (state : String) : Session × Option Error :=
  let url := p.config.AuthCodeURL state
  let s : Session := { Session.zero with AuthURL := url }
  (s, none)

/-- Every byte of `s` is one that `url.QueryEscape` leaves as it is. -/
def url.allUnreserved (s : String) : Prop := ∀ c ∈ s.data, url.unreserved c.toNat = true

/-! ## Library: package time, as far as `encoding/json` uses it -/

namespace time

/-- The function `isLeap`. -/
def isLeap (year : Int) : Bool :=
  year % 4 == 0 && (year % 100 != 0 || year % 400 == 0)

/-- The function `daysIn`: the number of days of month `m` of `year`. -/
def daysIn (m : Nat) (year : Int) : Nat :=
  if m = 2 then (if isLeap year then 29 else 28)
  else if m = 4 ∨ m = 6 ∨ m = 9 ∨ m = 11 then 30
  else 31

/-- The fields of a `Time` are those of a date and a time of day: every
`time.Time` presents itself with such fields. -/
def wellFormed (t : Time) : Prop :=
  1 ≤ t.month ∧ t.month ≤ 12 ∧ 1 ≤ t.day ∧ t.day ≤ daysIn t.month t.year
    ∧ t.hour < 24 ∧ t.minute < 60 ∧ t.second < 60 ∧ t.nsec < 1000000000

instance (t : Time) : Decidable (wellFormed t) := by
  unfold wellFormed
  infer_instance

/-- The closure `utod` of `appendInt`: the character of one decimal digit. -/
def utod (u : Nat) : Char := Char.ofNat (48 + u)

/-- The last `width` decimal digits of `u`, after the digits of `u` above
them, if there are any. -/
def digits : Nat → Nat → List Char
  | 0, u => if u = 0 then [] else Nat.toDigits 10 u
  | width + 1, u => digits width (u / 10) ++ [utod (u % 10)]

/-- The function `appendInt`: the sign and the decimal digits of `x`, padded
with zeros on the left to `width` digits. -/
def appendInt (x : Int) (width : Nat) : List Char :=
  (if x < 0 then ['-'] else [])
    ++ (if width = 0 then Nat.toDigits 10 x.natAbs else digits width x.natAbs)

/-- Drops the zeros at the end of a list of digit characters. -/
def trimZeros : List Char → List Char
  | [] => []
  | c :: cs =>
    match trimZeros cs with
    | [] => if c = '0' then [] else [c]
    | r => c :: r

/-- The function `appendNano` for the layout `.999999999`: nothing for zero
nanoseconds, otherwise a period and the nine digits without trailing zeros. -/
def appendNano (nanosec : Nat) : List Char :=
  if nanosec = 0 then []
  else
    match trimZeros (appendInt nanosec 9) with
    | [] => []
    | r => '.' :: r

/-- The zone of `appendFormatRFC3339`: `Z` for the offset zero, otherwise the
sign, the hours and the minutes of the offset. -/
def appendZone (offset : Int) : List Char :=
  if offset = 0 then ['Z']
  else
    let zone := Int.tdiv offset 60
    let sign := if zone < 0 then '-' else '+'
    let zone := zone.natAbs
    [sign] ++ appendInt (Int.ofNat (zone / 60)) 2 ++ [':'] ++ appendInt (Int.ofNat (zone % 60)) 2

/-- The method `appendFormatRFC3339` with nanoseconds: the layout
`2006-01-02T15:04:05.999999999Z07:00`. -/
def appendFormatRFC3339 (t : Time) : List Char :=
  appendInt t.year 4 ++ ['-'] ++ appendInt t.month 2 ++ ['-'] ++ appendInt t.day 2
    ++ ['T'] ++ appendInt t.hour 2 ++ [':'] ++ appendInt t.minute 2 ++ [':']
    ++ appendInt t.second 2 ++ appendNano t.nsec ++ appendZone t.offset

/-- The method `Time.MarshalJSON`: the time in RFC 3339 format with sub-second
precision, as the content of a JSON string.  It is an error when the year is
outside of [0,9999] or the hour of the zone offset outside of [0,23]. -/
def MarshalJSON (t : Time) : Except Error String :=
  if t.year < 0 ∨ t.year ≥ 10000 then
    .error (errors.New "Time.MarshalJSON: year outside of range [0,9999]")
  else if (Int.tdiv t.offset 60).natAbs / 60 ≥ 24 then
    .error (errors.New "Time.MarshalJSON: timezone hour outside of range [0,23]")
  else
    .ok (String.mk (appendFormatRFC3339 t))

/-- The function `isDigit` at one character. -/
def isDigit (c : Char) : Bool := '0' ≤ c ∧ c ≤ '9'

/-- The closure `parseUint` of `parseRFC3339`: a run of decimal digits as a
number within `[min, max]`. -/
def parseUint (s : List Char) (min max : Nat) : Option Nat :=
  if s.all isDigit then
    let x := s.foldl (fun x c => x * 10 + (c.toNat - 48)) 0
    if x < min ∨ max < x then none else some x
  else none

/-- The function `parseNanoseconds` on the digits of a fraction: at most nine
digits count, scaled to nanoseconds. -/
def parseNanoseconds (ds : List Char) : Nat :=
  let used := ds.take 9
  used.foldl (fun x c => x * 10 + (c.toNat - 48)) 0 * 10 ^ (9 - used.length)

/-- The time zone of `parseRFC3339`: `Z`, or a sign, two digits of hours, a
colon and two digits of minutes; the result is the offset in seconds. -/
def parseZone (s : List Char) : Option Int :=
  if s = ['Z'] then some 0
  else
    match s with
    | [sg, h1, h2, c, m1, m2] =>
      match parseUint [h1, h2] 0 23, parseUint [m1, m2] 0 59 with
      | some hr, some mm =>
        if (sg = '-' ∨ sg = '+') ∧ c = ':' then
          let zoneOffset : Int := ((hr * 60 + mm) * 60 : Nat)
          some (if sg = '-' then -zoneOffset else zoneOffset)
        else none
      | _, _ => none
    | _ => none

/-- The fraction of a second of `parseRFC3339`: a period followed by at least
one digit; the result is the nanoseconds and the rest of the text. -/
def parseFraction (s : List Char) : Nat × List Char :=
  match s with
  | c :: d :: more =>
    if c = '.' ∧ isDigit d = true then
      (parseNanoseconds ((d :: more).takeWhile isDigit), (d :: more).dropWhile isDigit)
    else (0, s)
  | _ => (0, s)

/-- The function `parseRFC3339`: date, time of day, optional fraction of a
second, zone.  The result has the fields read, in the zone read, and no
monotonic clock reading. -/
def parseRFC3339 (s : List Char) : Option Time :=
  match s with
  | y1 :: y2 :: y3 :: y4 :: c4 :: m1 :: m2 :: c7 :: d1 :: d2 :: c10 :: h1 :: h2 :: c13
      :: n1 :: n2 :: c16 :: s1 :: s2 :: rest =>
    match parseUint [y1, y2, y3, y4] 0 9999, parseUint [m1, m2] 1 12 with
    | some year, some month =>
      match parseUint [d1, d2] 1 (daysIn month year), parseUint [h1, h2] 0 23,
          parseUint [n1, n2] 0 59, parseUint [s1, s2] 0 59 with
      | some day, some hour, some min, some sec =>
        if c4 = '-' ∧ c7 = '-' ∧ c10 = 'T' ∧ c13 = ':' ∧ c16 = ':' then
          let (nsec, rest) := parseFraction rest
          match parseZone rest with
          | some offset =>
            some { year := year, month := month, day := day, hour := hour, minute := min,
                   second := sec, nsec := nsec, offset := offset, mono := none }
          | none => none
        else none
      | _, _, _, _ => none
    | _, _ => none
  | _ => none

end time

/-! ## Library: encoding/json

JSON text is not modelled character by character: a byte string is what the
scanner of `encoding/json` makes of it (`Text`), and a JSON value is a tree
(`Value`) whose strings are already unquoted and whose numbers keep the parts
of their literal. -/

namespace json

/-- A JSON number as written: sign, integer part, the digits after the decimal
point (none when there is no fraction) and the exponent, if any. -/
structure Number where
  neg : Bool
  int : Nat
  frac : List Nat
  exp : Option Int
  deriving DecidableEq, Repr

/-- The integer literal `i`. -/
def Number.ofInt (i : Int) : Number :=
  { neg := decide (i < 0), int := i.natAbs, frac := [], exp := none }

/-- What `strconv.ParseInt(literal, 10, 64)` gives: the value of a literal
without fraction and exponent that fits an `int64`. -/
def Number.int64? (n : Number) : Option Int :=
  if n.frac = [] ∧ n.exp = none then
    let v : Int := if n.neg then -(n.int : Int) else n.int
    if -9223372036854775808 ≤ v ∧ v ≤ 9223372036854775807 then some v else none
  else none

/-- Whether `strconv.ParseFloat(literal, 64)` reports a range error: the
magnitude is at least 2^1024 - 2^970, half a unit in the last place above the
largest `float64`.  The value is `m * 10^e` for the digits `m` of the literal. -/
def Number.overflowsFloat64 (n : Number) : Bool :=
  let m := n.frac.foldl (fun x d => x * 10 + d) n.int
  let e : Int := n.exp.getD 0 - n.frac.length
  let limit := 2 ^ 1024 - 2 ^ 970
  if e ≥ 0 then decide (m * 10 ^ e.toNat ≥ limit)
  else decide (m ≥ limit * 10 ^ (-e).toNat)

/-- The number of binary digits of `n`; `fuel` is at least that number. -/
def bitsAux : Nat → Nat → Nat
  | 0, _ => 0
  | fuel + 1, n => if n = 0 then 0 else bitsAux fuel (n / 2) + 1

/-- The number of binary digits of `n`: zero for zero, and otherwise one more
than the exponent of the largest power of two not above `n`. -/
def bits (n : Nat) : Nat := bitsAux n n

/-- A finite `float64`: the number `mant * 2^exp`, negated when `neg`.  A
value has one such form: `mant` is below 2^53, `exp` is at least -1074, `mant`
is at least 2^52 unless `exp` is -1074, and zero has the exponent 0. -/
structure Float64 where
  neg : Bool
  mant : Nat
  exp : Int
  deriving DecidableEq, Repr

/-- The number a `float64` stands for. -/
def Float64.toRat (f : Float64) : ℚ :=
  (if f.neg then -1 else 1) * (f.mant : ℚ) * (2 : ℚ) ^ f.exp

/-- The `float64` nearest to the fraction `a / b`, for `b` not zero; of two
that are equally near, the one with the even mantissa.  The result is not
bounded above: `overflowsFloat64` tells when it would exceed the largest
`float64`. -/
def Float64.round (neg : Bool) (a b : Nat) : Float64 :=
  if a = 0 then { neg := neg, mant := 0, exp := 0 }
  else
    let k0 : Int := (bits a : Int) - (bits b : Int)
    let atLeast : Bool :=
      if k0 ≥ 0 then decide (a ≥ b * 2 ^ k0.toNat) else decide (a * 2 ^ (-k0).toNat ≥ b)
    let k : Int := if atLeast then k0 else k0 - 1
    let e : Int := max (k - 52) (-1074)
    let num : Nat := if e ≥ 0 then a else a * 2 ^ (-e).toNat
    let den : Nat := if e ≥ 0 then b * 2 ^ e.toNat else b
    let m := num / den
    let r := num % den
    let m := if 2 * r > den ∨ (2 * r = den ∧ m % 2 = 1) then m + 1 else m
    if m = 0 then { neg := neg, mant := 0, exp := 0 }
    else if m = 2 ^ 53 then { neg := neg, mant := 2 ^ 52, exp := e + 1 }
    else { neg := neg, mant := m, exp := e }

/-- What `strconv.ParseFloat(literal, 64)` gives when it reports no error: the
`float64` nearest to the value `m * 10^e` of the literal. -/
def Number.toFloat64 (n : Number) : Float64 :=
  let m := n.frac.foldl (fun x d => x * 10 + d) n.int
  let e : Int := n.exp.getD 0 - n.frac.length
  if e ≥ 0 then Float64.round n.neg (m * 10 ^ e.toNat) 1
  else Float64.round n.neg m (10 ^ (-e).toNat)

/-- A JSON value.  An object keeps its members in the order of the text,
duplicates included. -/
inductive Value where
  | null
  | bool (b : Bool)
  | number (n : Number)
  | string (s : String)
  | array (xs : List Value)
  | object (kvs : List (String × Value))
  deriving Repr

/-- A byte string as the `Decoder` of `encoding/json` reads it: `empty` has no
value before the end of input, `invalid` is not the text of a JSON value, and
`value v` begins with the text of the JSON value `v`. -/
inductive Text where
  | empty
  | invalid (e : Error)
  | value (v : Value)
  deriving Repr

/-- What decoding into an `interface{}` yields: nil, `bool`, `float64`,
`string`, `[]interface{}` or `map[string]interface{}`.  A map is a list of
distinct keys with their values. -/
inductive Any where
  | nil
  | bool (b : Bool)
  | float64 (f : Float64)
  | string (s : String)
  | slice (xs : List Any)
  | map (m : List (String × Any))
  deriving Repr

/-- The map assignment `m[k] = v`. -/
def mapSet (m : List (String × Any)) (k : String) (v : Any) : List (String × Any) :=
  match m with
  | [] => [(k, v)]
  | (k0, v0) :: rest => if k0 = k then (k, v) :: rest else (k0, v0) :: mapSet rest k v

/-- The map index `m[k]`, with whether the key is present. -/
def mapGet (m : List (String × Any)) (k : String) : Option Any :=
  match m with
  | [] => none
  | (k0, v0) :: rest => if k0 = k then some v0 else mapGet rest k

/-- The method `saveError`: the first error is the one kept. -/
def saveError (saved : Option Error) (e : Option Error) : Option Error :=
  match saved with
  | some x => some x
  | none => e

mutual
/-- The method `valueInterface`: a JSON value as an `interface{}`, and the
error saved while decoding it.  A number out of the range of `float64` is an
error and leaves nil. -/
def valueInterface : Value → Any × Option Error
  | .null => (.nil, none)
  | .bool b => (.bool b, none)
  | .number n =>
    if n.overflowsFloat64 then (.nil, some (Error.UnmarshalTypeError "number" "float64"))
    else (.float64 n.toFloat64, none)
  | .string s => (.string s, none)
  | .array xs =>
    let r := arrayInterface xs
    (.slice r.1, r.2)
  | .object kvs =>
    let r := objectInterface [] kvs
    (.map r.1, r.2)
/-- The method `arrayInterface`. -/
def arrayInterface : List Value → List Any × Option Error
  | [] => ([], none)
  | x :: xs =>
    let r1 := valueInterface x
    let r2 := arrayInterface xs
    (r1.1 :: r2.1, saveError r1.2 r2.2)
/-- The method `objectInterface`, and the loop of `object` for a map of
`interface{}`: each member in turn is decoded and assigned to its key in `m`. -/
def objectInterface (m : List (String × Any)) : List (String × Value) →
    List (String × Any) × Option Error
  | [] => (m, none)
  | (k, x) :: rest =>
    let r1 := valueInterface x
    let r2 := objectInterface (mapSet m k r1.1) rest
    (r2.1, saveError r1.2 r2.2)
end

/-- The name of the kind of a JSON value in an `UnmarshalTypeError`. -/
def Value.kind : Value → String
  | .null => "null"
  | .bool _ => "bool"
  | .number _ => "number"
  | .string _ => "string"
  | .array _ => "array"
  | .object _ => "object"

/-- Decoding into a `map[string]interface{}`: `null` makes the map nil, an
object is decoded member by member into the map (a new one when it was nil),
and any other value is a type error that leaves the map as it was. -/
def decodeMap (cur : Option (List (String × Any))) (v : Value) :
    Option (List (String × Any)) × Option Error :=
  match v with
  | .null => (none, none)
  | .object kvs =>
    let r := objectInterface (cur.getD []) kvs
    (some r.1, r.2)
  | v => (cur, some (Error.UnmarshalTypeError v.kind "map[string]interface \x7b\x7d"))

/-- Decoding into a `string`: a JSON string is stored, `null` changes nothing,
any other value is a type error. -/
def decodeString (cur : String) (v : Value) : String × Option Error :=
  match v with
  | .null => (cur, none)
  | .string s => (s, none)
  | v => (cur, some (Error.UnmarshalTypeError v.kind "string"))

/-- Decoding into an `int64`: a number is stored when `strconv.ParseInt`
accepts its literal, `null` changes nothing, anything else is a type error. -/
def decodeInt64 (cur : Int) (v : Value) : Int × Option Error :=
  match v with
  | .null => (cur, none)
  | .number n =>
    match n.int64? with
    | some i => (i, none)
    | none => (cur, some (Error.UnmarshalTypeError "number" "int64"))
  | v => (cur, some (Error.UnmarshalTypeError v.kind "int64"))

/-- The folding of one character of an object key: ASCII letters to upper
case, the Kelvin sign to `K` and the long s to `S`.  Other characters fold
among themselves, which never makes them equal to a character of an ASCII
name. -/
def foldRune (c : Char) : Char :=
  if 97 ≤ c.toNat ∧ c.toNat ≤ 122 then Char.ofNat (c.toNat - 32)
  else if c.toNat = 0x212A then 'K'
  else if c.toNat = 0x17F then 'S'
  else c

/-- The function `foldName`: equal for two names exactly when they are equal
under case folding. -/
def foldName (s : String) : String := String.mk (s.data.map foldRune)

/-- The position of the first element of `names` equal to `key`. -/
def indexOf (names : List String) (key : String) : Option Nat :=
  match names with
  | [] => none
  | n :: rest => if n = key then some 0 else (indexOf rest key).map (· + 1)

/-- The struct field an object key stands for: the one whose name is the key,
or else the one whose name is the key under case folding. -/
def findField (names : List String) (key : String) : Option Nat :=
  match indexOf names key with
  | some i => some i
  | none => indexOf (names.map foldName) (foldName key)

/-- The result of decoding into a struct: the struct and the error saved,
or, when an `Unmarshaler` failed, the struct so far and its error, at which
decoding stopped. -/
abbrev Result (S : Type) := Except (S × Error) (S × Option Error)

/-- The loop of the method `object` for a struct: the members in turn. -/
def decodeFields {S : Type} (setField : S → Option Error → String → Value → Result S) :
    List (String × Value) → S → Option Error → Result S
  | [], s, saved => .ok (s, saved)
  | (k, v) :: rest, s, saved =>
    match setField s saved k v with
    | .ok (s, saved) => decodeFields setField rest s saved
    | .error x => .error x

/-- Decoding into a struct of type `typeName`: `null` changes nothing, an
object is decoded member by member, any other value is a type error. -/
def decodeStruct {S : Type} (typeName : String)
    (setField : S → Option Error → String → Value → Result S)
    (cur : S) (saved : Option Error) (v : Value) : Result S :=
  match v with
  | .null => .ok (cur, saved)
  | .object kvs => decodeFields setField kvs cur saved
  | v => .ok (cur, saveError saved (some (Error.UnmarshalTypeError v.kind typeName)))

/-- The method `(*Decoder).Decode`: `io.EOF` when there is no value, the syntax
error of an invalid text, and otherwise the result of decoding the first value
of the text; the error of an `Unmarshaler` comes before a saved one. -/
def Decode {S : Type} (decode : S → Option Error → Value → Result S) (cur : S) (data : Text) :
    S × Option Error :=
  match data with
  | .empty => (cur, some Error.EOF)
  | .invalid e => (cur, some e)
  | .value v =>
    match decode cur none v with
    | .ok (s, saved) => (s, saved)
    | .error (s, e) => (s, some e)

end json

namespace time

/-- The method `(*Time).UnmarshalJSON`: `null` changes nothing, a string in
RFC 3339 format sets the time, a string in another format is an error and
leaves the zero time, any other value is an error.  The string is read by its
content, which is its literal text when that has no escape sequence. -/
def UnmarshalJSON (cur : Time) (v : json.Value) : Time × Option Error :=
  match v with
  | .null => (cur, none)
  | .string s =>
    match parseRFC3339 s.data with
    | some t => (t, none)
    | none => (Time.zero, some (Error.ParseError "parsing time: not in RFC 3339 format"))
  | _ => (cur, some (errors.New "Time.UnmarshalJSON: input is not a JSON string"))

end time

/-- Go's `strconv.FormatInt(i, 10)`. -/
def strconv.FormatInt (i : Int) : String :=
  if i < 0 then "-" ++ Nat.repr i.natAbs else Nat.repr i.natAbs

/-! ## session.go: Marshal, and donationalerts.go: UnmarshalSession -/

/-- The function `json.Marshal` at a `*Session`: an object with the four
exported fields in the order of their declaration, `ExpiresAt` as the string
that `Time.MarshalJSON` writes.  It fails when `Time.MarshalJSON` fails. -/
def json.Marshal (s : Session) : Except Error json.Value :=
  match time.MarshalJSON s.ExpiresAt with
  | .error e => .error (Error.MarshalerError e)
  | .ok t =>
    .ok (.object [("AuthURL", .string s.AuthURL), ("AccessToken", .string s.AccessToken),
      ("RefreshToken", .string s.RefreshToken), ("ExpiresAt", .string t)])

/-- Marshal the session into a string.  The error of `json.Marshal` is
dropped: when it fails its bytes are nil, and the string is empty. -/
def Session.Marshal (s : Session) : json.Text :=
  match json.Marshal s with
  | .ok j => json.Text.value j
  | .error _ => json.Text.empty

/-- One member of a JSON object decoded into a `Session`. -/
def Session.setField (s : Session) (saved : Option Error) (key : String) (v : json.Value) :
    json.Result Session :=
  match json.findField ["AuthURL", "AccessToken", "RefreshToken", "ExpiresAt"] key with
  | some 0 =>
    let r := json.decodeString s.AuthURL v
    .ok ({ s with AuthURL := r.1 }, json.saveError saved r.2)
  | some 1 =>
    let r := json.decodeString s.AccessToken v
    .ok ({ s with AccessToken := r.1 }, json.saveError saved r.2)
  | some 2 =>
    let r := json.decodeString s.RefreshToken v
    .ok ({ s with RefreshToken := r.1 }, json.saveError saved r.2)
  | some 3 =>
    match time.UnmarshalJSON s.ExpiresAt v with
    | (t, none) => .ok ({ s with ExpiresAt := t }, saved)
    | (t, some e) => .error ({ s with ExpiresAt := t }, e)
  | _ => .ok (s, saved)

/-- UnmarshalSession will unmarshal a JSON string into a session. -/
def Provider.UnmarshalSession (_p : Provider) (data : json.Text) : Session × Option Error :=
  let s := Session.zero
  json.Decode (json.decodeStruct "donationalerts.Session" Session.setField) s data

/-! ## donationalerts.go: FetchUser -/

/-- Modelled from the spec: the struct `goth.User` (the normalized user), whose
declaration is not among the sources, with the fields that `FetchUser` and
`decodeUserData` use.  `RawData` is a `map[string]interface{}`, nil or a map. -/
structure User where
  RawData : Option (List (String × json.Any))
  Provider : String
  Email : String
  Name : String
  NickName : String
  UserID : String
  AvatarURL : String
  AccessToken : String
  RefreshToken : String
  ExpiresAt : Time
  deriving Repr

/-- The zero value `goth.User{}`. -/
def User.zero : User :=
  { RawData := none, Provider := "", Email := "", Name := "", NickName := "", UserID := "",
    AvatarURL := "", AccessToken := "", RefreshToken := "", ExpiresAt := Time.zero }

/-- The struct of the field `Data` of the local variable `profile` of
`decodeUserData`. -/
structure ProfileData where
  Id : Int
  Code : String
  Name : String
  Avatar : String
  Email : String
  SocketConnectionString : String
  deriving DecidableEq, Repr

/-- The struct of the local variable `profile` of `decodeUserData`. -/
structure Profile where
  Data : ProfileData
  deriving DecidableEq, Repr

/-- The zero value of `profile`. -/
def Profile.zero : Profile :=
  { Data := { Id := 0, Code := "", Name := "", Avatar := "", Email := "",
              SocketConnectionString := "" } }

/-- One member of a JSON object decoded into the struct of `profile.Data`,
whose fields have the tags `id`, `code`, `name`, `avatar`, `email` and
`socket_connection_string`. -/
def ProfileData.setField (d : ProfileData) (saved : Option Error) (key : String)
    (v : json.Value) : json.Result ProfileData :=
  match json.findField ["id", "code", "name", "avatar", "email", "socket_connection_string"]
      key with
  | some 0 =>
    let r := json.decodeInt64 d.Id v
    .ok ({ d with Id := r.1 }, json.saveError saved r.2)
  | some 1 =>
    let r := json.decodeString d.Code v
    .ok ({ d with Code := r.1 }, json.saveError saved r.2)
  | some 2 =>
    let r := json.decodeString d.Name v
    .ok ({ d with Name := r.1 }, json.saveError saved r.2)
  | some 3 =>
    let r := json.decodeString d.Avatar v
    .ok ({ d with Avatar := r.1 }, json.saveError saved r.2)
  | some 4 =>
    let r := json.decodeString d.Email v
    .ok ({ d with Email := r.1 }, json.saveError saved r.2)
  | some 5 =>
    let r := json.decodeString d.SocketConnectionString v
    .ok ({ d with SocketConnectionString := r.1 }, json.saveError saved r.2)
  | _ => .ok (d, saved)

/-- One member of a JSON object decoded into `profile`, whose only field has
the tag `data`. -/
def Profile.setField (p : Profile) (saved : Option Error) (key : String) (v : json.Value) :
    json.Result Profile :=
  match json.findField ["data"] key with
  | some 0 =>
    match json.decodeStruct "struct" ProfileData.setField p.Data saved v with
    | .ok (d, saved) => .ok ({ p with Data := d }, saved)
    | .error (d, e) => .error ({ p with Data := d }, e)
  | _ => .ok (p, saved)

/-- The function `decodeUserData`: the body is decoded twice, into
`user.RawData` and into `profile`, and then the fields of the user are set from
the profile.  The result is the user after the call and the error. -/
def decodeUserData (bits : json.Text) (user : User) : User × Option Error :=
  let r := json.Decode
    (fun cur saved v => let m := json.decodeMap cur v; .ok (m.1, json.saveError saved m.2))
    user.RawData bits
  let user := { user with RawData := r.1 }
  match r.2 with
  | some err => (user, some err)
  | none =>
    let profile := Profile.zero
    let r := json.Decode (json.decodeStruct "struct" Profile.setField) profile bits
    let profile := r.1
    match r.2 with
    | some err => (user, some err)
    | none =>
      let user := { user with Name := profile.Data.Name }
      let user := { user with NickName := profile.Data.Code }
      let user := { user with Email := profile.Data.Email }
      let user := { user with UserID := strconv.FormatInt profile.Data.Id }
      let user := { user with AvatarURL := profile.Data.Avatar }
      (user, none)

/-- An `*http.Request`, as far as `fetchUserData` builds it. -/
structure Request where
  Method : String
  URL : String
  Header : List (String × String)
  deriving DecidableEq, Repr

/-- The network as `fetchUserData` meets it: whether `http.NewRequest` rejects
a method and URL, and what sending a request with a client gives, either the
error of `Do` or the bytes and the error of reading the body. -/
structure Network where
  NewRequest : String → String → Option Error
  Do : Client → Request → Except Error (json.Text × Option Error)

/-- The method `fetchUserData`: a GET request to the profile endpoint with the
access token as bearer. -/
def Provider.fetchUserData (net : Network) (p : Provider) (accessToken : String) :
    json.Text × Option Error :=
  match net.NewRequest "GET" p.ProfileEndpoint with
  | some err => (json.Text.empty, some err)
  | none =>
    let req : Request := { Method := "GET", URL := p.ProfileEndpoint, Header := [] }
    let req := { req with Header := [("Authorization", "Bearer " ++ accessToken)] }
    match net.Do p.Client req with
    | .error err => (json.Text.empty, some err)
    | .ok (bits, err) => (bits, err)

/-- FetchUser obtains basic info about the user. -/
def Provider.FetchUser (net : Network) (p : Provider) (session : Session) :
    User × Option Error :=
  let s := session
  let r := p.fetchUserData net s.AccessToken
  match r.2 with
  | some err => (User.zero, some err)
  | none =>
    let user : User :=
      { User.zero with
        Provider := p.Name
        AccessToken := s.AccessToken
        RefreshToken := s.RefreshToken
        ExpiresAt := s.ExpiresAt }
    decodeUserData r.1 user

/-! ## Predicates on JSON values used to state the properties -/

namespace json

/-- The value an object gives to a key: the value of its last member with that
key, which is the one that the decoder keeps. -/
def member (kvs : List (String × Value)) (k : String) : Option Value :=
  match kvs with
  | [] => none
  | (k0, v0) :: rest =>
    match member rest k with
    | some v => some v
    | none => if k0 = k then some v0 else none

mutual
/-- The `interface{}` value `a` is the JSON value `v`: nil for `null`, the same
boolean, the same string, the `float64` nearest to the number, a slice of the
same length whose elements are the elements of the array in order, and a map
whose keys are those of the object, each with the value of the last member of
that name. -/
def Value.decodedAs : Value → Any → Prop
  | .null, a => a = .nil
  | .bool b, a => a = .bool b
  | .number n, a => a = .float64 n.toFloat64
  | .string s, a => a = .string s
  | .array xs, a => ∃ ys, a = .slice ys ∧ elementsDecodedAs xs ys
  | .object kvs, a =>
    ∃ m, a = .map m ∧ membersDecodedAs kvs m
      ∧ ∀ k, k ∉ kvs.map Prod.fst → mapGet m k = none
/-- The elements of a slice are the elements of an array, one by one. -/
def elementsDecodedAs : List Value → List Any → Prop
  | [], ys => ys = []
  | x :: xs, ys => ∃ y rest, ys = y :: rest ∧ x.decodedAs y ∧ elementsDecodedAs xs rest
/-- Every member of an object whose name does not come again later in the
object has its name as a key of the map `m`, with its value. -/
def membersDecodedAs : List (String × Value) → List (String × Any) → Prop
  | [], _ => True
  | (k, v) :: rest, m =>
    (k ∈ rest.map Prod.fst ∨ ∃ a, mapGet m k = some a ∧ v.decodedAs a)
      ∧ membersDecodedAs rest m
end

mutual
/-- Every number within the value is in the range of `float64`. -/
def Value.fitsFloat64 : Value → Bool
  | .null => true
  | .bool _ => true
  | .number n => !n.overflowsFloat64
  | .string _ => true
  | .array xs => allFit xs
  | .object kvs => membersFit kvs
/-- Every number within the values of the list is in the range of `float64`. -/
def allFit : List Value → Bool
  | [] => true
  | x :: xs => x.fitsFloat64 && allFit xs
/-- Every number within the members of an object is in the range of `float64`. -/
def membersFit : List (String × Value) → Bool
  | [] => true
  | (_, x) :: rest => x.fitsFloat64 && membersFit rest
end

end json

/-- The error a decoding into a struct ends with. -/
def json.Result.err {S : Type} (r : json.Result S) : Option Error :=
  match r with
  | .ok (_, saved) => saved
  | .error (_, e) => some e

/-- No `data` member of the object has an `id` member, names taken under case
folding. -/
def json.noId (kvs : List (String × json.Value)) : Prop :=
  ∀ k dkvs, (k, json.Value.object dkvs) ∈ kvs → json.findField ["data"] k = some 0 →
    ∀ kv ∈ dkvs,
      json.findField ["id", "code", "name", "avatar", "email", "socket_connection_string"] kv.1
        ≠ some 0

/-! ## Lemmas on strings -/

theorem strings.contains_append_right (a b sub : String) (h : strings.Contains b sub) :
    strings.Contains (a ++ b) sub := by
  unfold strings.Contains at *
  rw [String.data_append]
  exact List.IsInfix.trans h (List.suffix_append _ _).isInfix

theorem strings.contains_append_left (a b sub : String) (h : strings.Contains a sub) :
    strings.Contains (a ++ b) sub := by
  unfold strings.Contains at *
  rw [String.data_append]
  exact List.IsInfix.trans h (List.prefix_append _ _).isInfix

theorem strings.contains_self (a : String) : strings.Contains a a :=
  List.infix_refl _

theorem strings.contains_join (xs : List String) (sep x : String) (h : x ∈ xs) :
    strings.Contains (strings.Join xs sep) x := by
  induction xs with
  | nil => cases h
  | cons y ys ih =>
    cases ys with
    | nil =>
      simp only [List.mem_singleton] at h
      subst h
      exact strings.contains_self _
    | cons z zs =>
      simp only [strings.Join]
      rcases List.mem_cons.mp h with h | h
      · subst h
        exact strings.contains_append_left _ _ _ (strings.contains_append_left _ _ _ (strings.contains_self _))
      · exact strings.contains_append_right _ _ _ (ih h)

theorem url.escapeByte_unreserved (c : Char) (h : url.unreserved c.toNat = true) :
    (url.utf8Bytes c).flatMap url.escapeByte = [c] := by
  have hlt : c.toNat < 0x80 := by
    simp only [url.unreserved, Bool.or_eq_true, Bool.and_eq_true, decide_eq_true_eq,
      beq_iff_eq] at h
    omega
  simp only [url.utf8Bytes, hlt, if_true, List.flatMap_cons, List.flatMap_nil, List.append_nil,
    url.escapeByte, h]
  congr 1
  exact Char.ofNat_toNat c

theorem url.QueryEscape_unreserved (s : String) (h : url.allUnreserved s) :
    url.QueryEscape s = s := by
  unfold url.QueryEscape
  have key : ∀ l : List Char, (∀ c ∈ l, url.unreserved c.toNat = true) →
      (l.flatMap fun c => (url.utf8Bytes c).flatMap url.escapeByte) = l := by
    intro l
    induction l with
    | nil => intro _; rfl
    | cons c cs ih =>
      intro hl
      rw [List.flatMap_cons, url.escapeByte_unreserved c (hl c (List.mem_cons_self _ _)),
        ih (fun d hd => hl d (List.mem_cons_of_mem _ hd))]
      rfl
  rw [key s.data h]

/-! ## Lemmas on the construction of a provider -/

theorem foldl_append_scopes (scopes : List String) (c : oauth2.Config) :
    (scopes.foldl (fun config s => { config with Scopes := config.Scopes ++ [s] }) c)
      = { c with Scopes := c.Scopes ++ scopes } := by
  induction scopes generalizing c with
  | nil => simp
  | cons x xs ih => simp [List.foldl_cons, ih]

theorem newConfig_eq (p : Provider) (scopes : List String) :
    newConfig p scopes =
      { ClientID := p.ClientKey
        ClientSecret := p.Secret
        Endpoint := { AuthURL := authEndpoint, TokenURL := tokenEndpoint }
        RedirectURL := p.CallbackURL
        Scopes := if scopes = [] then [ScopeUserShow] else scopes } := by
  unfold newConfig
  cases scopes with
  | nil => simp
  | cons x xs => simp [foldl_append_scopes]

/-! ## Lemmas on the RFC 3339 text of a time -/

namespace time

theorem utod_toNat (d : Nat) (h : d < 10) : (utod d).toNat - 48 = d := by
  interval_cases d <;> decide

theorem utod_isDigit (d : Nat) (h : d < 10) : isDigit (utod d) = true := by
  interval_cases d <;> decide

theorem digits_two (u : Nat) (h : u < 100) : digits 2 u = [utod (u / 10), utod (u % 10)] := by
  have h1 : u / 10 / 10 = 0 := by omega
  have h2 : u / 10 % 10 = u / 10 := by omega
  simp [digits, h1, h2]

theorem digits_four (u : Nat) (h : u < 10000) :
    digits 4 u = [utod (u / 1000), utod (u / 100 % 10), utod (u / 10 % 10), utod (u % 10)] := by
  have h1 : u / 10 / 10 / 10 / 10 = 0 := by omega
  have h2 : u / 10 / 10 / 10 % 10 = u / 1000 := by omega
  have h3 : u / 10 / 10 % 10 = u / 100 % 10 := by omega
  simp [digits, h1, h2, h3]

theorem parseUint_two (a b lo hi : Nat) (ha : a < 10) (hb : b < 10)
    (hlo : lo ≤ a * 10 + b) (hhi : a * 10 + b ≤ hi) :
    parseUint [utod a, utod b] lo hi = some (a * 10 + b) := by
  have ra := utod_isDigit a ha
  have rb := utod_isDigit b hb
  have ta := utod_toNat a ha
  have tb := utod_toNat b hb
  unfold parseUint
  rw [show ([utod a, utod b].all isDigit) = true by simp [ra, rb]]
  rw [if_pos rfl]
  simp only [List.foldl_cons, List.foldl_nil]
  rw [ta, tb]
  have : ¬ ((0 * 10 + a) * 10 + b < lo ∨ hi < (0 * 10 + a) * 10 + b) := by omega
  rw [if_neg this]
  congr 1
  omega

theorem val_append (l : List Char) (c : Char) :
    (l ++ [c]).foldl (fun x c => x * 10 + (c.toNat - 48)) 0
      = l.foldl (fun x c => x * 10 + (c.toNat - 48)) 0 * 10 + (c.toNat - 48) := by
  rw [List.foldl_append]
  rfl

theorem digits_spec (w n : Nat) (h : n < 10 ^ w) :
    (digits w n).length = w ∧ (∀ c ∈ digits w n, isDigit c = true)
    ∧ (digits w n).foldl (fun x c => x * 10 + (c.toNat - 48)) 0 = n := by
  induction w generalizing n with
  | zero =>
    have h0 : n = 0 := by simpa using h
    subst h0
    simp [digits]
  | succ w ih =>
    have hdiv : n / 10 < 10 ^ w := by
      rw [pow_succ] at h
      omega
    obtain ⟨h1, h2, h3⟩ := ih (n / 10) hdiv
    have hd : n % 10 < 10 := Nat.mod_lt _ (by norm_num)
    refine ⟨?_, ?_, ?_⟩
    · simp [digits, h1]
    · intro c hc
      simp only [digits, List.mem_append, List.mem_singleton] at hc
      rcases hc with hc | hc
      · exact h2 c hc
      · rw [hc]; exact utod_isDigit _ hd
    · simp only [digits]
      rw [val_append, h3, utod_toNat _ hd]
      omega

theorem val_replicate_zero (l : List Char) (k : Nat) :
    (l ++ List.replicate k '0').foldl (fun x c => x * 10 + (c.toNat - 48)) 0
      = l.foldl (fun x c => x * 10 + (c.toNat - 48)) 0 * 10 ^ k := by
  induction k with
  | zero => simp
  | succ k ih =>
    rw [List.replicate_succ', ← List.append_assoc, val_append, ih, pow_succ]
    have : ('0' : Char).toNat - 48 = 0 := by decide
    rw [this]
    ring

theorem trimZeros_spec (l : List Char) :
    ∃ k, l = trimZeros l ++ List.replicate k '0' := by
  induction l with
  | nil => exact ⟨0, rfl⟩
  | cons c cs ih =>
    obtain ⟨k, hk⟩ := ih
    cases hr : trimZeros cs with
    | nil =>
      rw [hr] at hk
      by_cases hc : c = '0'
      · refine ⟨k + 1, ?_⟩
        simp only [trimZeros, hr, hc, if_true, List.nil_append]
        simp only [List.nil_append] at hk
        rw [hk, List.replicate_succ]
      · refine ⟨k, ?_⟩
        simp only [trimZeros, hr, hc, if_false]
        simp only [List.nil_append] at hk
        rw [hk]
        rfl
    | cons r rs =>
      refine ⟨k, ?_⟩
      simp only [trimZeros, hr]
      rw [hr] at hk
      rw [List.cons_append, ← hk]

theorem takeWhile_digits (a b : List Char) (ha : ∀ c ∈ a, isDigit c = true)
    (hb : ∀ c ∈ b.head?, isDigit c = false) :
    (a ++ b).takeWhile isDigit = a ∧ (a ++ b).dropWhile isDigit = b := by
  induction a with
  | nil =>
    cases b with
    | nil => exact ⟨rfl, rfl⟩
    | cons x xs =>
      have hx : isDigit x = false := hb x (by simp)
      simp [List.takeWhile, List.dropWhile, hx]
  | cons x xs ih =>
    have hx : isDigit x = true := ha x (List.mem_cons_self _ _)
    obtain ⟨h1, h2⟩ := ih (fun c hc => ha c (List.mem_cons_of_mem _ hc))
    simp [List.takeWhile, List.dropWhile, hx, h1, h2]

theorem appendInt_natCast (n w : Nat) : appendInt (n : Int) (w + 1) = digits (w + 1) n := by
  have : ¬ ((n : Int) < 0) := by omega
  simp [appendInt, this]

theorem appendZone_head (offset : Int) :
    ∃ c rest, appendZone offset = c :: rest ∧ isDigit c = false ∧ c ≠ '.' := by
  unfold appendZone
  by_cases h0 : offset = 0
  · exact ⟨'Z', [], by simp [h0], by decide, by decide⟩
  · by_cases hz : Int.tdiv offset 60 < 0
    · simp only [h0, hz, if_true, if_false, List.singleton_append, List.cons_append,
        List.append_assoc]
      exact ⟨_, _, rfl, by decide, by decide⟩
    · simp only [h0, hz, if_true, if_false, List.singleton_append, List.cons_append,
        List.append_assoc]
      exact ⟨_, _, rfl, by decide, by decide⟩

theorem parseFraction_appendNano (nsec : Nat) (h : nsec < 1000000000) (offset : Int) :
    parseFraction (appendNano nsec ++ appendZone offset) = (nsec, appendZone offset) := by
  obtain ⟨z, zs, hz, hzd, hzp⟩ := appendZone_head offset
  by_cases h0 : nsec = 0
  · subst h0
    simp only [appendNano, if_true, List.nil_append, hz]
    cases zs with
    | nil => rfl
    | cons y ys => simp [parseFraction, hzp]
  · obtain ⟨hlen, hdig, hval⟩ := digits_spec 9 nsec (by norm_num; exact h)
    obtain ⟨k, hk⟩ := trimZeros_spec (digits 9 nsec)
    have hv : (trimZeros (digits 9 nsec)).foldl (fun x c => x * 10 + (c.toNat - 48)) 0 * 10 ^ k
        = nsec := by
      rw [← val_replicate_zero, ← hk, hval]
    have hl : (trimZeros (digits 9 nsec)).length + k = 9 := by
      have := congrArg List.length hk
      simp only [List.length_append, List.length_replicate] at this
      omega
    have hd : ∀ c ∈ trimZeros (digits 9 nsec), isDigit c = true := by
      intro c hc
      apply hdig
      rw [hk]
      exact List.mem_append_left _ hc
    simp only [appendNano, h0, if_false, appendInt_natCast]
    cases ht : trimZeros (digits 9 nsec) with
    | nil =>
      rw [ht] at hv
      simp at hv
      exact absurd hv.symm h0
    | cons d more =>
      rw [ht] at hv hl hd
      have hdd : isDigit d = true := hd d (List.mem_cons_self _ _)
      obtain ⟨t1, t2⟩ := takeWhile_digits (d :: more) (appendZone offset) hd
        (by rw [hz]; intro c hc; simp at hc; rw [← hc]; exact hzd)
      simp only [List.cons_append] at t1 t2 ⊢
      unfold parseFraction
      simp only [hdd, and_self, if_true, t1, t2, Prod.mk.injEq, and_true]
      have hlen9 : (d :: more).length ≤ 9 := by omega
      have hk9 : 9 - (d :: more).length = k := by omega
      simp only [parseNanoseconds, List.take_of_length_le hlen9, hk9]
      exact hv

theorem tdiv_natAbs (offset : Int) : (Int.tdiv offset 60).natAbs = offset.natAbs / 60 := by
  cases offset with
  | ofNat n => rfl
  | negSucc n =>
    show (-Int.ofNat (n.succ / 60)).natAbs = n.succ / 60
    rw [Int.natAbs_neg]
    rfl

theorem tdiv_neg_iff (offset : Int) (h : offset % 60 = 0) :
    Int.tdiv offset 60 < 0 ↔ offset < 0 := by
  cases offset with
  | ofNat n =>
    show ((n / 60 : Nat) : Int) < 0 ↔ ((n : Nat) : Int) < 0
    omega
  | negSucc n =>
    show -(((n + 1) / 60 : Nat) : Int) < 0 ↔ Int.negSucc n < 0
    have e : Int.negSucc n = -((n : Int) + 1) := rfl
    rw [e] at h ⊢
    omega

theorem parseZone_appendZone (offset : Int) (hm : offset % 60 = 0)
    (hr : -86400 < offset ∧ offset < 86400) :
    parseZone (appendZone offset) = some offset := by
  unfold appendZone
  by_cases h0 : offset = 0
  · subst h0
    rfl
  · simp only [h0, if_false, tdiv_natAbs, tdiv_neg_iff offset hm, Int.ofNat_eq_coe, appendInt_natCast]
    have hz : offset.natAbs / 60 < 1440 := by omega
    have h1 : offset.natAbs / 60 / 60 < 100 := by omega
    have h2 : offset.natAbs / 60 % 60 < 100 := by omega
    rw [digits_two _ h1, digits_two _ h2]
    simp only [List.singleton_append, List.cons_append, List.nil_append]
    have hne : ∀ a b c d e f : Char, ([a, b, c, d, e, f] = ['Z']) = False := by
      intros; simp
    simp only [parseZone, hne, if_false]
    rw [parseUint_two (offset.natAbs / 60 / 60 / 10) (offset.natAbs / 60 / 60 % 10) 0 23
        (by omega) (by omega) (by omega) (by omega),
      parseUint_two (offset.natAbs / 60 % 60 / 10) (offset.natAbs / 60 % 60 % 10) 0 59
        (by omega) (by omega) (by omega) (by omega)]
    by_cases hneg : offset < 0
    · simp only [hneg, if_true, true_or, and_self]
      congr 1
      omega
    · have hpm : ¬ ('+' = '-') := by decide
      simp only [hneg, if_false, or_true, and_self, if_true, hpm]
      congr 1
      omega

theorem parseUint_digits2 (u lo hi : Nat) (h : u < 100) (hlo : lo ≤ u) (hhi : u ≤ hi) :
    parseUint [utod (u / 10), utod (u % 10)] lo hi = some u := by
  rw [parseUint_two (u / 10) (u % 10) lo hi (by omega) (by omega) (by omega) (by omega)]
  congr 1
  omega

theorem parseUint_digits4 (u hi : Nat) (h : u < 10000) (hhi : u ≤ hi) :
    parseUint [utod (u / 1000), utod (u / 100 % 10), utod (u / 10 % 10), utod (u % 10)] 0 hi
      = some u := by
  have r1 := utod_isDigit (u / 1000) (by omega)
  have r2 := utod_isDigit (u / 100 % 10) (by omega)
  have r3 := utod_isDigit (u / 10 % 10) (by omega)
  have r4 := utod_isDigit (u % 10) (by omega)
  have t1 := utod_toNat (u / 1000) (by omega)
  have t2 := utod_toNat (u / 100 % 10) (by omega)
  have t3 := utod_toNat (u / 10 % 10) (by omega)
  have t4 := utod_toNat (u % 10) (by omega)
  unfold parseUint
  rw [show ([utod (u / 1000), utod (u / 100 % 10), utod (u / 10 % 10), utod (u % 10)].all
    isDigit) = true by simp [r1, r2, r3, r4]]
  rw [if_pos rfl]
  simp only [List.foldl_cons, List.foldl_nil]
  rw [t1, t2, t3, t4]
  have e : (((0 * 10 + u / 1000) * 10 + u / 100 % 10) * 10 + u / 10 % 10) * 10 + u % 10 = u := by
    omega
  rw [e]
  have : ¬ (u < 0 ∨ hi < u) := by omega
  rw [if_neg this]

/-- What `parseRFC3339` reads from the text `appendFormatRFC3339` writes is the
time written, without its monotonic clock reading. -/
theorem parseRFC3339_appendFormatRFC3339 (t : Time) (hw : wellFormed t)
    (hy : 0 ≤ t.year ∧ t.year < 10000) (hm : t.offset % 60 = 0)
    (hr : -86400 < t.offset ∧ t.offset < 86400) :
    parseRFC3339 (appendFormatRFC3339 t) = some { t with mono := none } := by
  obtain ⟨hmo1, hmo2, hd1, hd2, hh, hmi, hs, hn⟩ := hw
  have hday : t.day ≤ 31 := by
    have : daysIn t.month t.year ≤ 31 := by
      unfold daysIn
      split_ifs <;> omega
    omega
  obtain ⟨y, hyy⟩ : ∃ y : Nat, t.year = (y : Int) := ⟨t.year.toNat, by omega⟩
  have hy4 : y < 10000 := by omega
  unfold appendFormatRFC3339
  rw [hyy]
  simp only [appendInt_natCast]
  rw [digits_four y hy4, digits_two t.month (by omega), digits_two t.day (by omega),
    digits_two t.hour (by omega), digits_two t.minute (by omega), digits_two t.second (by omega)]
  simp only [List.cons_append, List.nil_append, List.append_assoc]
  unfold parseRFC3339
  simp only []
  rw [parseUint_digits4 y 9999 hy4 (by omega), parseUint_digits2 t.month 1 12 (by omega) hmo1 hmo2]
  simp only []
  rw [← hyy]
  rw [parseUint_digits2 t.day 1 _ (by omega) hd1 hd2,
    parseUint_digits2 t.hour 0 23 (by omega) (by omega) (by omega),
    parseUint_digits2 t.minute 0 59 (by omega) (by omega) (by omega),
    parseUint_digits2 t.second 0 59 (by omega) (by omega) (by omega)]
  simp only [and_self, if_true, parseFraction_appendNano t.nsec hn t.offset,
    parseZone_appendZone t.offset hm hr]

end time

/-! ## Lemmas on decoding JSON into an interface value -/

namespace json

theorem saveError_eq_none (a b : Option Error) : saveError a b = none ↔ a = none ∧ b = none := by
  cases a <;> simp [saveError]

theorem saveError_none_left (b : Option Error) : saveError none b = b := rfl

theorem saveError_none_right (a : Option Error) : saveError a none = a := by
  cases a <;> rfl

theorem saveError_ne_none_left (a b : Option Error) (h : a ≠ none) : saveError a b ≠ none := by
  cases a with
  | none => exact absurd rfl h
  | some x => simp [saveError]

mutual
theorem valueInterface_fits : ∀ v : Value, v.fitsFloat64 = true → (valueInterface v).2 = none
  | .null, _ => rfl
  | .bool _, _ => rfl
  | .number n, h => by
    simp only [Value.fitsFloat64, Bool.not_eq_true'] at h
    simp [valueInterface, h]
  | .string _, _ => rfl
  | .array xs, h => by
    simp only [Value.fitsFloat64] at h
    simp only [valueInterface]
    exact arrayInterface_fits xs h
  | .object kvs, h => by
    simp only [Value.fitsFloat64] at h
    simp only [valueInterface]
    exact objectInterface_fits kvs [] h
theorem arrayInterface_fits : ∀ xs : List Value, allFit xs = true → (arrayInterface xs).2 = none
  | [], _ => rfl
  | x :: xs, h => by
    simp only [allFit, Bool.and_eq_true] at h
    simp only [arrayInterface, saveError_eq_none]
    exact ⟨valueInterface_fits x h.1, arrayInterface_fits xs h.2⟩
theorem objectInterface_fits : ∀ (kvs : List (String × Value)) (m : List (String × Any)),
    membersFit kvs = true → (objectInterface m kvs).2 = none
  | [], _, _ => rfl
  | (k, x) :: rest, m, h => by
    simp only [membersFit, Bool.and_eq_true] at h
    simp only [objectInterface, saveError_eq_none]
    exact ⟨valueInterface_fits x h.1, objectInterface_fits rest _ h.2⟩
end

theorem mapGet_mapSet (m : List (String × Any)) (k k' : String) (a : Any) :
    mapGet (mapSet m k' a) k = if k' = k then some a else mapGet m k := by
  induction m with
  | nil => simp [mapSet, mapGet]
  | cons kv rest ih =>
    obtain ⟨k0, v0⟩ := kv
    by_cases h0 : k0 = k'
    · subst h0
      by_cases h1 : k0 = k <;> simp [mapSet, mapGet, h1]
    · by_cases h1 : k0 = k
      · subst h1
        have : ¬ (k' = k0) := fun e => h0 e.symm
        simp [mapSet, mapGet, h0, this]
      · simp [mapSet, mapGet, h0, h1, ih]

theorem mapGet_objectInterface (kvs : List (String × Value)) (m : List (String × Any))
    (k : String) :
    mapGet (objectInterface m kvs).1 k =
      match member kvs k with
      | some v => some (valueInterface v).1
      | none => mapGet m k := by
  induction kvs generalizing m with
  | nil => simp [objectInterface, member]
  | cons kv rest ih =>
    obtain ⟨k0, v0⟩ := kv
    simp only [objectInterface, member]
    rw [ih]
    cases hm : member rest k with
    | some v => rfl
    | none =>
      simp only [mapGet_mapSet]
      by_cases h : k0 = k <;> simp [h]

/-! ### The decoded value, stated on the JSON value -/

theorem member_eq_none_iff (kvs : List (String × Value)) (k : String) :
    member kvs k = none ↔ k ∉ kvs.map Prod.fst := by
  induction kvs with
  | nil => simp [member]
  | cons kv rest ih =>
    obtain ⟨k0, v0⟩ := kv
    simp only [member, List.map_cons, List.mem_cons, not_or]
    cases hm : member rest k with
    | some v =>
      have : ¬ (k ∉ rest.map Prod.fst) := fun h => by
        rw [← ih, hm] at h
        exact Option.noConfusion h
      constructor
      · intro h
        exact Option.noConfusion h
      · intro h
        exact absurd h.2 this
    | none =>
      have hr : k ∉ rest.map Prod.fst := ih.mp hm
      by_cases h : k0 = k
      · simp [h]
      · have h2 : ¬ (k = k0) := fun e => h e.symm
        simp [h, h2, hr]

mutual
theorem valueInterface_decodedAs :
    ∀ v : Value, (valueInterface v).2 = none → v.decodedAs (valueInterface v).1
  | .null, _ => by simp [valueInterface, Value.decodedAs]
  | .bool _, _ => by simp [valueInterface, Value.decodedAs]
  | .number n, h => by
    by_cases ho : n.overflowsFloat64 = true
    · simp [valueInterface, ho] at h
    · simp [valueInterface, ho, Value.decodedAs]
  | .string _, _ => by simp [valueInterface, Value.decodedAs]
  | .array xs, h => by
    simp only [valueInterface] at h
    simp only [valueInterface, Value.decodedAs]
    exact ⟨_, rfl, arrayInterface_decodedAs xs h⟩
  | .object kvs, h => by
    simp only [valueInterface] at h
    simp only [valueInterface, Value.decodedAs]
    refine ⟨_, rfl, objectInterface_decodedAs kvs [] h, ?_⟩
    intro k hk
    rw [mapGet_objectInterface, (member_eq_none_iff kvs k).mpr hk]
    rfl
theorem arrayInterface_decodedAs :
    ∀ xs : List Value, (arrayInterface xs).2 = none →
      elementsDecodedAs xs (arrayInterface xs).1
  | [], _ => by simp [arrayInterface, elementsDecodedAs]
  | x :: xs, h => by
    simp only [arrayInterface, saveError_eq_none] at h
    simp only [arrayInterface, elementsDecodedAs]
    exact ⟨_, _, rfl, valueInterface_decodedAs x h.1, arrayInterface_decodedAs xs h.2⟩
theorem objectInterface_decodedAs :
    ∀ (kvs : List (String × Value)) (m : List (String × Any)),
      (objectInterface m kvs).2 = none → membersDecodedAs kvs (objectInterface m kvs).1
  | [], _, _ => by simp [membersDecodedAs]
  | (k, x) :: rest, m, h => by
    simp only [objectInterface, saveError_eq_none] at h
    simp only [objectInterface, membersDecodedAs]
    refine ⟨?_, objectInterface_decodedAs rest _ h.2⟩
    by_cases hk : k ∈ rest.map Prod.fst
    · exact Or.inl hk
    · refine Or.inr ⟨(valueInterface x).1, ?_, valueInterface_decodedAs x h.1⟩
      rw [mapGet_objectInterface, (member_eq_none_iff rest k).mpr hk]
      simp [mapGet_mapSet]
end

theorem membersDecodedAs_member (kvs : List (String × Value)) (m : List (String × Any))
    (h : membersDecodedAs kvs m) (k : String) (v : Value) (hv : member kvs k = some v) :
    ∃ a, mapGet m k = some a ∧ v.decodedAs a := by
  induction kvs with
  | nil => simp [member] at hv
  | cons kv rest ih =>
    obtain ⟨k0, v0⟩ := kv
    simp only [membersDecodedAs] at h
    simp only [member] at hv
    cases hm : member rest k with
    | some w =>
      rw [hm] at hv
      simp only [Option.some.injEq] at hv
      subst hv
      exact ih h.2 hm
    | none =>
      rw [hm] at hv
      by_cases hk : k0 = k
      · simp only [hk, if_true, Option.some.injEq] at hv
        subst hv
        subst hk
        rcases h.1 with h1 | h1
        · exact absurd h1 ((member_eq_none_iff rest k0).mp hm)
        · exact h1
      · simp [hk] at hv

/-! ### The `float64` of an integer literal -/

theorem bitsAux_zero (fuel : Nat) : bitsAux fuel 0 = 0 := by
  cases fuel <;> simp [bitsAux]

theorem bitsAux_spec : ∀ (fuel n : Nat), n ≤ fuel → 0 < n →
    2 ^ (bitsAux fuel n - 1) ≤ n ∧ n < 2 ^ bitsAux fuel n ∧ 0 < bitsAux fuel n
  | 0, n, h, hn => by omega
  | fuel + 1, n, h, hn => by
    have hn0 : n ≠ 0 := by omega
    simp only [bitsAux, hn0, if_false]
    by_cases h2 : n / 2 = 0
    · rw [h2, bitsAux_zero]
      have : n = 1 := by omega
      subst this
      decide
    · obtain ⟨h3, h4, h5⟩ := bitsAux_spec fuel (n / 2) (by omega) (by omega)
      have e1 : 2 ^ (bitsAux fuel (n / 2)) = 2 * 2 ^ (bitsAux fuel (n / 2) - 1) := by
        rw [← pow_succ']
        congr 1
        omega
      have e2 : 2 ^ (bitsAux fuel (n / 2) + 1) = 2 * 2 ^ (bitsAux fuel (n / 2)) := pow_succ' _ _
      refine ⟨?_, ?_, by omega⟩
      · simp only [Nat.add_sub_cancel]
        omega
      · omega

theorem bits_spec (n : Nat) (hn : 0 < n) :
    2 ^ (bits n - 1) ≤ n ∧ n < 2 ^ bits n ∧ 0 < bits n :=
  bitsAux_spec n n (Nat.le_refl n) hn

theorem round_integer (neg : Bool) (n : Nat) (hn : 0 < n) (hlt : n < 2 ^ 53) :
    Float64.round neg n 1
      = { neg := neg, mant := n * 2 ^ (53 - bits n), exp := (bits n : Int) - 53 } := by
  obtain ⟨h1, h2, h3⟩ := bits_spec n hn
  have hL : bits n ≤ 53 := by
    have : 2 ^ (bits n - 1) < 2 ^ 53 := lt_of_le_of_lt h1 hlt
    have := (Nat.pow_lt_pow_iff_right (by norm_num : 1 < 2)).mp this
    omega
  have hb1 : bits 1 = 1 := by decide
  have hn0 : n ≠ 0 := by omega
  have hk0 : ((bits n : Int) - (1 : Nat)) ≥ 0 := by omega
  have hkn : ((bits n : Int) - (1 : Nat)).toNat = bits n - 1 := by omega
  have he : max ((bits n : Int) - (1 : Nat) - 52) (-1074) = (bits n : Int) - 53 := by
    rw [max_eq_left] <;> omega
  unfold Float64.round
  simp only [hn0, if_false, hb1, hk0, if_true, hkn, one_mul, ge_iff_le, h1, decide_True, he]
  by_cases h53 : bits n = 53
  · have e0 : (bits n : Int) - 53 = 0 := by omega
    have hne : n ≠ 9007199254740992 := Nat.ne_of_lt (lt_of_lt_of_eq hlt (by norm_num))
    simp [e0, h53, hn0, hne, Nat.mod_one]
  · have eneg : ¬ ((0 : Int) ≤ (bits n : Int) - 53) := by omega
    have etn : (-((bits n : Int) - 53)).toNat = 53 - bits n := by omega
    have hm : n * 2 ^ (53 - bits n) < 2 ^ 53 := by
      calc n * 2 ^ (53 - bits n) < 2 ^ bits n * 2 ^ (53 - bits n) :=
            Nat.mul_lt_mul_of_pos_right h2 (Nat.two_pow_pos _)
        _ = 2 ^ 53 := by rw [← pow_add]; congr 1; omega
    have hm0 : n * 2 ^ (53 - bits n) ≠ 0 :=
      Nat.mul_ne_zero hn0 (Nat.pos_iff_ne_zero.mp (Nat.two_pow_pos _))
    have hm1 : n * 2 ^ (53 - bits n) ≠ 9007199254740992 :=
      Nat.ne_of_lt (lt_of_lt_of_eq hm (by norm_num))
    simp only [eneg, etn, if_false, Nat.mod_one, Nat.mul_zero, Nat.div_one, hm0, hm1]
    simp [hn0, hm1]

theorem round_integer_toRat (neg : Bool) (n : Nat) (hle : n ≤ 2 ^ 53) :
    (Float64.round neg n 1).toRat = (if neg then -1 else 1) * (n : ℚ) := by
  rcases Nat.eq_zero_or_pos n with h0 | hn
  · subst h0
    simp [Float64.round, Float64.toRat]
  rcases Nat.lt_or_ge n (2 ^ 53) with hlt | hge
  · rw [round_integer neg n hn hlt]
    obtain ⟨h1, h2, h3⟩ := bits_spec n hn
    have hL : bits n ≤ 53 := by
      have : 2 ^ (bits n - 1) < 2 ^ 53 := lt_of_le_of_lt h1 hlt
      have := (Nat.pow_lt_pow_iff_right (by norm_num : 1 < 2)).mp this
      omega
    have e1 : ((bits n : Int) - 53) = -((53 - bits n : Nat) : Int) := by omega
    simp only [Float64.toRat]
    rw [e1, zpow_neg, zpow_natCast]
    push_cast
    have h2ne : ((2 : ℚ) ^ (53 - bits n)) ≠ 0 := pow_ne_zero _ (by norm_num)
    field_simp
  · have : n = 2 ^ 53 := Nat.le_antisymm hle hge
    subst this
    have hr : Float64.round neg (2 ^ 53) 1 = { neg := neg, mant := 2 ^ 52, exp := 1 } := by
      cases neg <;> decide
    rw [hr]
    simp only [Float64.toRat]
    norm_num

theorem toFloat64_integer (i : Int) (h : i.natAbs ≤ 2 ^ 53) :
    (Number.ofInt i).toFloat64.toRat = (i : ℚ) := by
  have hf : (Number.ofInt i).toFloat64 = Float64.round (decide (i < 0)) i.natAbs 1 := by
    simp [Number.toFloat64, Number.ofInt]
  rw [hf, round_integer_toRat _ _ h]
  by_cases hi : i < 0
  · have : (i.natAbs : ℚ) = -(i : ℚ) := by
      have h1 : (i.natAbs : Int) = -i := by omega
      rw [← Int.cast_natCast, h1, Int.cast_neg]
    simp [hi, this]
  · have : (i.natAbs : ℚ) = (i : ℚ) := by
      have h1 : (i.natAbs : Int) = i := by omega
      rw [← Int.cast_natCast, h1]
    simp [hi, this]

end json

/-! ## Claims -/

/-- C8: `GetAuthURL` fails with the missing-auth-URL error, returning the empty
string, exactly when `AuthURL` is empty; for a non-empty `AuthURL` it returns
that URL with no error; it never changes the session; and it fails on the zero
session, which has never been begun. -/
theorem GetAuthURL_fails_iff_empty (msg : String) (s : Session) :
    ((s.GetAuthURL msg).2.2 = some (errors.New msg) ↔ s.AuthURL = "")
    ∧ ((s.GetAuthURL msg).2.2 ≠ none ↔ s.AuthURL = "")
    ∧ (s.AuthURL = "" → (s.GetAuthURL msg).2.1 = "")
    ∧ (s.AuthURL ≠ "" → s.GetAuthURL msg = (s, s.AuthURL, none))
    ∧ (s.GetAuthURL msg).1 = s
    ∧ Session.zero.GetAuthURL msg = (Session.zero, "", some (errors.New msg)) := by
  refine ⟨?_, ?_, ?_, ?_, ?_, ?_⟩
  · by_cases h : s.AuthURL = "" <;> simp [Session.GetAuthURL, h]
  · by_cases h : s.AuthURL = "" <;> simp [Session.GetAuthURL, h]
  · intro h; simp [Session.GetAuthURL, h]
  · intro h; simp [Session.GetAuthURL, h]
  · by_cases h : s.AuthURL = "" <;> simp [Session.GetAuthURL, h]
  · rfl

/-- C9: the scopes configured by `New` are the single scope `oauth-user-show`
when the list passed is empty, and otherwise the list passed itself: same
elements, same order, same length, duplicates kept. -/
theorem New_scopes (clientKey secret callbackURL : String) (scopes : List String) :
    (New clientKey secret callbackURL scopes).config.Scopes
      = if scopes = [] then ["oauth-user-show"] else scopes := by
  simp only [New, newConfig_eq]
  rfl

/-- C2: when `Authorize` returns an error, whatever the exchange returned, the
session after the call is the session before it and the returned access token
is the empty string. -/
theorem Authorize_error_keeps_session
    (Exchange : oauth2.Config → Client → String → Option oauth2.Token × Option Error)
    (expired : oauth2.Token → Bool) (s : Session) (p : Provider) (params : String → String)
    (h : (s.Authorize Exchange expired p params).2.2 ≠ none) :
    (s.Authorize Exchange expired p params).1 = s
    ∧ (s.Authorize Exchange expired p params).2.1 = "" := by
  unfold Session.Authorize at h ⊢
  rcases hx : Exchange p.config p.Client (params "code") with ⟨token, err⟩
  simp only [hx] at h ⊢
  cases err with
  | some e => exact ⟨rfl, rfl⟩
  | none =>
    by_cases hv : oauth2.Token.Valid expired token = true
    · cases token with
      | none => exact ⟨rfl, rfl⟩
      | some t => simp [hv] at h
    · simp [hv]

/-- A failed exchange, at which C2 is instantiated: the session keeps its
authorisation URL and stays without tokens. -/
theorem Authorize_error_keeps_session_witness :
    let Exchange : oauth2.Config → Client → String → Option oauth2.Token × Option Error :=
      fun _ _ _ => (none, some (Error.external "oauth2: cannot fetch token"))
    let s : Session := { Session.zero with AuthURL := "https://www.donationalerts.com/oauth/authorize?x" }
    let p := New "key" "secret" "/cb" []
    (s.Authorize Exchange (fun _ => false) p (fun _ => "code")).2.2 ≠ none
    ∧ (s.Authorize Exchange (fun _ => false) p (fun _ => "code")).1 = s
    ∧ (s.Authorize Exchange (fun _ => false) p (fun _ => "code")).2.1 = "" := by
  intro Exchange s p
  have h : (s.Authorize Exchange (fun _ => false) p (fun _ => "code")).2.2 ≠ none := by
    simp [Session.Authorize, Exchange]
  exact ⟨h, Authorize_error_keeps_session Exchange (fun _ => false) s p (fun _ => "code") h⟩

/-- C3 (as amended): for every response of the token endpoint whose
`access_token` is empty, `Authorize` fails and no field of the session is
written; the error is the one of the token exchange, never the error "Invalid
token received from provider", and for a response that is otherwise well-formed
(a status within 200..299 and no error code) it is oauth2's "server response
missing access_token".  The error "Invalid token received from provider" is
what `Authorize` returns when the exchange returns, without error, a token that
is not valid (without access token, or expired), and then too no field of the
session has been written. -/
theorem Authorize_response_without_access_token
    (expired : oauth2.Token → Bool) (s : Session) (p : Provider) (params : String → String) :
    (∀ (endpoint : oauth2.Config → Client → String → oauth2.TokenResponse)
        (expiry : Int → Time) (status : Nat) (tj : oauth2.tokenJSON),
        endpoint p.config p.Client (params "code") = .body status tj → tj.AccessToken = "" →
        (s.Authorize (oauth2.Config.Exchange endpoint expiry) expired p params).1 = s
        ∧ (s.Authorize (oauth2.Config.Exchange endpoint expiry) expired p params).2.1 = ""
        ∧ (s.Authorize (oauth2.Config.Exchange endpoint expiry) expired p params).2.2 ≠ none
        ∧ (s.Authorize (oauth2.Config.Exchange endpoint expiry) expired p params).2.2
            ≠ some (errors.New "Invalid token received from provider")
        ∧ ((200 ≤ status ∧ status ≤ 299 ∧ tj.ErrorCode = "") →
            (s.Authorize (oauth2.Config.Exchange endpoint expiry) expired p params).2.2
              = some (errors.New "oauth2: server response missing access_token")))
    ∧ (∀ (Exchange : oauth2.Config → Client → String → Option oauth2.Token × Option Error)
        (t : Option oauth2.Token),
        Exchange p.config p.Client (params "code") = (t, none) →
        oauth2.Token.Valid expired t = false →
        s.Authorize Exchange expired p params
          = (s, "", some (errors.New "Invalid token received from provider"))) := by
  constructor
  · intro endpoint expiry status tj hx ht
    by_cases hs : status < 200 ∨ status > 299 ∨ tj.ErrorCode ≠ ""
    · have hr : oauth2.Config.Exchange endpoint expiry p.config p.Client (params "code")
          = (none, some (Error.external "oauth2: cannot fetch token")) := by
        simp only [oauth2.Config.Exchange, hx, oauth2.retrieveToken, hs, if_true]
      have hA : s.Authorize (oauth2.Config.Exchange endpoint expiry) expired p params
          = (s, "", some (Error.external "oauth2: cannot fetch token")) := by
        simp [Session.Authorize, hr]
      rw [hA]
      refine ⟨rfl, rfl, by simp, by simp [errors.New], ?_⟩
      rintro ⟨h1, h2, h3⟩
      rcases hs with hs | hs | hs
      · omega
      · omega
      · exact absurd h3 hs
    · have hr : oauth2.Config.Exchange endpoint expiry p.config p.Client (params "code")
          = (none, some (errors.New "oauth2: server response missing access_token")) := by
        simp only [oauth2.Config.Exchange, hx, oauth2.retrieveToken, hs, if_false, ht, if_true]
      have hA : s.Authorize (oauth2.Config.Exchange endpoint expiry) expired p params
          = (s, "", some (errors.New "oauth2: server response missing access_token")) := by
        simp [Session.Authorize, hr]
      rw [hA]
      refine ⟨rfl, rfl, by simp, ?_, fun _ => rfl⟩
      simp only [errors.New, ne_eq, Option.some.injEq, Error.errorString.injEq]
      decide
  · intro Exchange t hx hv
    simp [Session.Authorize, hx, hv]

/-- A response with the status 200 and an empty `access_token`, and a response
whose token has already expired, at which the amended C3 is instantiated: the
first is the error of the exchange, the second the invalid-token error. -/
theorem Authorize_response_without_access_token_witness :
    (Session.Authorize
        (oauth2.Config.Exchange
          (fun _ _ _ => .body 200 { AccessToken := "", TokenType := "Bearer",
                                    RefreshToken := "r", ExpiresIn := 3600, ErrorCode := "" })
          (fun _ => Time.zero))
        (fun _ => false) { Session.zero with AuthURL := "u" } (New "key" "secret" "/cb" [])
        (fun _ => "code")).2.2
      = some (errors.New "oauth2: server response missing access_token")
    ∧ Session.Authorize
        (oauth2.Config.Exchange
          (fun _ _ _ => .body 200 { AccessToken := "TOKEN", TokenType := "Bearer",
                                    RefreshToken := "r", ExpiresIn := 1, ErrorCode := "" })
          (fun _ => { Time.zero with year := 2020 }))
        (fun _ => true) { Session.zero with AuthURL := "u" } (New "key" "secret" "/cb" [])
        (fun _ => "code")
      = ({ Session.zero with AuthURL := "u" }, "",
          some (errors.New "Invalid token received from provider")) :=
  ⟨((Authorize_response_without_access_token (fun _ => false) { Session.zero with AuthURL := "u" }
      (New "key" "secret" "/cb" []) (fun _ => "code")).1
      (fun _ _ _ => .body 200 { AccessToken := "", TokenType := "Bearer",
                                RefreshToken := "r", ExpiresIn := 3600, ErrorCode := "" })
      (fun _ => Time.zero) 200 _ rfl rfl).2.2.2.2 ⟨by decide, by decide, rfl⟩,
   (Authorize_response_without_access_token (fun _ => true) { Session.zero with AuthURL := "u" }
      (New "key" "secret" "/cb" []) (fun _ => "code")).2 _ _ rfl rfl⟩

/-- C3 (counterexample): the token endpoint answers with the status 200 and a
body whose `access_token` is empty.  `Exchange` returns the error "oauth2:
server response missing access_token", and `Authorize` returns that error at
its first check, not the error "Invalid token received from provider". -/
theorem Authorize_empty_access_token_is_exchange_error :
    (Session.Authorize
        (oauth2.Config.Exchange
          (fun _ _ _ => .body 200 { AccessToken := "", TokenType := "Bearer",
                                    RefreshToken := "r", ExpiresIn := 3600, ErrorCode := "" })
          (fun _ => Time.zero))
        (fun _ => false) { Session.zero with AuthURL := "u" } (New "key" "secret" "/cb" [])
        (fun _ => "code")).2.2
      = some (errors.New "oauth2: server response missing access_token")
    ∧ (Session.Authorize
        (oauth2.Config.Exchange
          (fun _ _ _ => .body 200 { AccessToken := "", TokenType := "Bearer",
                                    RefreshToken := "r", ExpiresIn := 3600, ErrorCode := "" })
          (fun _ => Time.zero))
        (fun _ => false) { Session.zero with AuthURL := "u" } (New "key" "secret" "/cb" [])
        (fun _ => "code")).2.2
      ≠ some (errors.New "Invalid token received from provider") := by
  decide

/-- C10: when the exchange succeeds with a valid token, `Authorize` returns the
token's access token with no error, the session's access token, refresh token
and expiry are those of the token, and its authorisation URL is unchanged. -/
theorem Authorize_success
    (Exchange : oauth2.Config → Client → String → Option oauth2.Token × Option Error)
    (expired : oauth2.Token → Bool) (s : Session) (p : Provider) (params : String → String)
    (t : oauth2.Token)
    (hx : Exchange p.config p.Client (params "code") = (some t, none))
    (hv : oauth2.Token.Valid expired (some t) = true) :
    s.Authorize Exchange expired p params
      = ({ AuthURL := s.AuthURL, AccessToken := t.AccessToken,
           RefreshToken := t.RefreshToken, ExpiresAt := t.Expiry },
         t.AccessToken, none) := by
  unfold Session.Authorize
  simp [hx, hv]

/-- A successful exchange, at which C10 is instantiated. -/
theorem Authorize_success_witness :
    let t : oauth2.Token :=
      { AccessToken := "TOKEN", TokenType := "Bearer", RefreshToken := "REFRESH_TOKEN",
        Expiry := { Time.zero with year := 2030 } }
    let Exchange : oauth2.Config → Client → String → Option oauth2.Token × Option Error :=
      fun _ _ _ => (some t, none)
    let s : Session := { Session.zero with AuthURL := "u" }
    s.Authorize Exchange (fun _ => false) (New "key" "secret" "/cb" []) (fun _ => "code")
      = ({ AuthURL := "u", AccessToken := "TOKEN", RefreshToken := "REFRESH_TOKEN",
           ExpiresAt := { Time.zero with year := 2030 } }, "TOKEN", none) := by
  intro t Exchange s
  exact Authorize_success Exchange (fun _ => false) s (New "key" "secret" "/cb" [])
    (fun _ => "code") t rfl rfl

/-! ## The authorisation URL -/

theorem AuthCodeURL_New (clientKey secret callbackURL state : String) (scopes : List String) :
    (New clientKey secret callbackURL scopes).config.AuthCodeURL state
      = authEndpoint ++ "?" ++ url.Values.Encode
          ([("client_id", clientKey)]
            ++ (if callbackURL ≠ "" then [("redirect_uri", callbackURL)] else [])
            ++ [("response_type", "code")]
            ++ [("scope", strings.Join (if scopes = [] then [ScopeUserShow] else scopes) " ")]
            ++ (if state ≠ "" then [("state", state)] else [])) := by
  have hq : ('?' ∈ authEndpoint.data) = False := by decide
  have hlen : (if scopes = [] then [ScopeUserShow] else scopes).length > 0 := by
    cases scopes <;> simp
  simp only [New, newConfig_eq, oauth2.Config.AuthCodeURL, hq, if_false, hlen, if_true]

theorem Encode_contains (v : List (String × String)) (k x : String) (h : (k, x) ∈ v) :
    strings.Contains (url.Values.Encode v) (url.QueryEscape k ++ "=" ++ url.QueryEscape x) := by
  unfold url.Values.Encode
  apply strings.contains_join
  exact List.mem_map.mpr ⟨(k, x), h, rfl⟩

/-- C4 (as amended): for every provider built by `New` and every state,
`BeginAuth` returns no error and a session whose `AuthURL` starts with the
authorisation endpoint followed by `?`, and contains `response_type=code`,
`client_id=` with the query-escaped client key, `scope=` with the
query-escaped list of scopes joined by a space (`scope=oauth-user-show` when
none was given) and, when the state is not empty, `state=` with the
query-escaped state.  Escaping leaves a string of ASCII letters, digits and
`-`, `_`, `.`, `~` as it is, so such a state or client key appears verbatim. -/
theorem BeginAuth_AuthURL (clientKey secret callbackURL state : String) (scopes : List String) :
    ((New clientKey secret callbackURL scopes).BeginAuth state).2 = none
    ∧ strings.HasPrefix ((New clientKey secret callbackURL scopes).BeginAuth state).1.AuthURL
        ("https://www.donationalerts.com/oauth/authorize" ++ "?")
    ∧ strings.Contains ((New clientKey secret callbackURL scopes).BeginAuth state).1.AuthURL
        "response_type=code"
    ∧ strings.Contains ((New clientKey secret callbackURL scopes).BeginAuth state).1.AuthURL
        ("client_id=" ++ url.QueryEscape clientKey)
    ∧ strings.Contains ((New clientKey secret callbackURL scopes).BeginAuth state).1.AuthURL
        ("scope=" ++ url.QueryEscape
          (strings.Join (if scopes = [] then ["oauth-user-show"] else scopes) " "))
    ∧ (scopes = [] →
        strings.Contains ((New clientKey secret callbackURL scopes).BeginAuth state).1.AuthURL
          "scope=oauth-user-show")
    ∧ (state ≠ "" →
        strings.Contains ((New clientKey secret callbackURL scopes).BeginAuth state).1.AuthURL
          ("state=" ++ url.QueryEscape state))
    ∧ (url.allUnreserved state → url.QueryEscape state = state)
    ∧ (url.allUnreserved clientKey → url.QueryEscape clientKey = clientKey) := by
  have hurl : ((New clientKey secret callbackURL scopes).BeginAuth state).1.AuthURL
      = (New clientKey secret callbackURL scopes).config.AuthCodeURL state := rfl
  rw [hurl, AuthCodeURL_New]
  have k1 : url.QueryEscape "client_id" = "client_id" := by decide
  have k2 : url.QueryEscape "response_type" = "response_type" := by decide
  have k3 : url.QueryEscape "scope" = "scope" := by decide
  have k4 : url.QueryEscape "state" = "state" := by decide
  have k5 : url.QueryEscape "code" = "code" := by decide
  have k6 : url.QueryEscape "oauth-user-show" = "oauth-user-show" := by decide
  have hscope : strings.Contains
      (authEndpoint ++ "?" ++ url.Values.Encode
          ([("client_id", clientKey)]
            ++ (if callbackURL ≠ "" then [("redirect_uri", callbackURL)] else [])
            ++ [("response_type", "code")]
            ++ [("scope", strings.Join (if scopes = [] then [ScopeUserShow] else scopes) " ")]
            ++ (if state ≠ "" then [("state", state)] else [])))
      ("scope=" ++ url.QueryEscape
          (strings.Join (if scopes = [] then ["oauth-user-show"] else scopes) " ")) := by
    apply strings.contains_append_right
    have h := Encode_contains
      ([("client_id", clientKey)]
            ++ (if callbackURL ≠ "" then [("redirect_uri", callbackURL)] else [])
            ++ [("response_type", "code")]
            ++ [("scope", strings.Join (if scopes = [] then [ScopeUserShow] else scopes) " ")]
            ++ (if state ≠ "" then [("state", state)] else []))
      "scope" (strings.Join (if scopes = [] then [ScopeUserShow] else scopes) " ") (by simp)
    rw [k3] at h
    exact h
  refine ⟨rfl, ?_, ?_, ?_, hscope, ?_, ?_, url.QueryEscape_unreserved state,
    url.QueryEscape_unreserved clientKey⟩
  · unfold strings.HasPrefix
    rw [String.data_append]
    exact List.prefix_append _ _
  · apply strings.contains_append_right
    have h := Encode_contains
      ([("client_id", clientKey)]
            ++ (if callbackURL ≠ "" then [("redirect_uri", callbackURL)] else [])
            ++ [("response_type", "code")]
            ++ [("scope", strings.Join (if scopes = [] then [ScopeUserShow] else scopes) " ")]
            ++ (if state ≠ "" then [("state", state)] else []))
      "response_type" "code" (by simp)
    rw [k2, k5] at h
    exact h
  · apply strings.contains_append_right
    have h := Encode_contains
      ([("client_id", clientKey)]
            ++ (if callbackURL ≠ "" then [("redirect_uri", callbackURL)] else [])
            ++ [("response_type", "code")]
            ++ [("scope", strings.Join (if scopes = [] then [ScopeUserShow] else scopes) " ")]
            ++ (if state ≠ "" then [("state", state)] else []))
      "client_id" clientKey (by simp)
    rw [k1] at h
    exact h
  · intro hs
    subst hs
    have h := hscope
    simp only [if_true] at h
    have e : strings.Join ["oauth-user-show"] " " = "oauth-user-show" := rfl
    rw [e, k6] at h
    exact h
  · intro hs
    apply strings.contains_append_right
    have h := Encode_contains
      ([("client_id", clientKey)]
            ++ (if callbackURL ≠ "" then [("redirect_uri", callbackURL)] else [])
            ++ [("response_type", "code")]
            ++ [("scope", strings.Join (if scopes = [] then [ScopeUserShow] else scopes) " ")]
            ++ (if state ≠ "" then [("state", state)] else []))
      "state" state (by simp [hs])
    rw [k4] at h
    exact h

/-- The provider and state of the repository's test `Test_BeginAuth`, at which
the amended C4 is instantiated: the state `test_state` appears verbatim. -/
theorem BeginAuth_AuthURL_witness :
    strings.Contains ((New "donationalerts_key" "donationalerts_secret" "/foo" []).BeginAuth
        "test_state").1.AuthURL "state=test_state"
    ∧ strings.Contains ((New "donationalerts_key" "donationalerts_secret" "/foo" []).BeginAuth
        "test_state").1.AuthURL "client_id=donationalerts_key"
    ∧ strings.Contains ((New "donationalerts_key" "donationalerts_secret" "/foo" []).BeginAuth
        "test_state").1.AuthURL "scope=oauth-user-show" := by
  have h := BeginAuth_AuthURL "donationalerts_key" "donationalerts_secret" "/foo" "test_state" []
  have e1 : url.QueryEscape "test_state" = "test_state" := by decide
  have e2 : url.QueryEscape "donationalerts_key" = "donationalerts_key" := by decide
  have h7 := h.2.2.2.2.2.2.1 (by decide)
  have h4 := h.2.2.2.1
  rw [e1] at h7
  rw [e2] at h4
  exact ⟨h7, h4, h.2.2.2.2.2.1 rfl⟩

set_option maxRecDepth 100000 in
/-- C4 (counterexample): the state token `c3RhdGU=`, which ends in the padding
`=` of base64, is not in the URL verbatim, since `=` is written `%3D`; and with
the empty state the URL has no `state=` parameter at all. -/
theorem BeginAuth_state_not_verbatim :
    ((New "donationalerts_key" "donationalerts_secret" "/foo" []).BeginAuth "c3RhdGU=").1.AuthURL
      = "https://www.donationalerts.com/oauth/authorize?client_id=donationalerts_key&redirect_uri=%2Ffoo&response_type=code&scope=oauth-user-show&state=c3RhdGU%3D"
    ∧ ¬ strings.Contains
        ((New "donationalerts_key" "donationalerts_secret" "/foo" []).BeginAuth "c3RhdGU=").1.AuthURL
        "state=c3RhdGU="
    ∧ ¬ strings.Contains
        ((New "donationalerts_key" "donationalerts_secret" "/foo" []).BeginAuth "").1.AuthURL
        "state=" := by
  decide

/-! ## Lemmas on the session's JSON -/

theorem MarshalJSON_ok (t : Time) (hy : 0 ≤ t.year ∧ t.year < 10000)
    (hr : -86400 < t.offset ∧ t.offset < 86400) :
    time.MarshalJSON t = .ok (String.mk (time.appendFormatRFC3339 t)) := by
  unfold time.MarshalJSON
  have h1 : ¬ (t.year < 0 ∨ t.year ≥ 10000) := by omega
  have h2 : ¬ ((Int.tdiv t.offset 60).natAbs / 60 ≥ 24) := by
    rw [time.tdiv_natAbs]
    omega
  rw [if_neg h1, if_neg h2]

/-- C1 (as amended): for every session whose `ExpiresAt` has a year within
[0, 9999] and a zone offset of whole minutes less than a day from UTC,
`UnmarshalSession(s.Marshal())` returns no error and a session with the same
`AuthURL`, `AccessToken` and `RefreshToken` and with the same `ExpiresAt` in
date, time of day, nanoseconds and zone offset; the monotonic clock reading of
`ExpiresAt` is not kept.  The string fields hold valid UTF-8. -/
theorem UnmarshalSession_Marshal (p : Provider) (s : Session)
    (hw : time.wellFormed s.ExpiresAt)
    (hy : 0 ≤ s.ExpiresAt.year ∧ s.ExpiresAt.year < 10000)
    (hm : s.ExpiresAt.offset % 60 = 0)
    (hr : -86400 < s.ExpiresAt.offset ∧ s.ExpiresAt.offset < 86400) :
    p.UnmarshalSession s.Marshal
      = ({ s with ExpiresAt := { s.ExpiresAt with mono := none } }, none) := by
  have f0 : json.findField ["AuthURL", "AccessToken", "RefreshToken", "ExpiresAt"] "AuthURL"
      = some 0 := by decide
  have f1 : json.findField ["AuthURL", "AccessToken", "RefreshToken", "ExpiresAt"] "AccessToken"
      = some 1 := by decide
  have f2 : json.findField ["AuthURL", "AccessToken", "RefreshToken", "ExpiresAt"] "RefreshToken"
      = some 2 := by decide
  have f3 : json.findField ["AuthURL", "AccessToken", "RefreshToken", "ExpiresAt"] "ExpiresAt"
      = some 3 := by decide
  have hp := time.parseRFC3339_appendFormatRFC3339 s.ExpiresAt hw hy hm hr
  simp only [Session.Marshal, json.Marshal, MarshalJSON_ok s.ExpiresAt hy hr,
    Provider.UnmarshalSession, json.Decode, json.decodeStruct, json.decodeFields,
    Session.setField, f0, f1, f2, f3, json.decodeString, json.saveError, time.UnmarshalJSON, hp]

/-- A session as `Authorize` leaves it, with an expiry that has a monotonic
clock reading and a zone, at which the amended C1 is instantiated. -/
theorem UnmarshalSession_Marshal_witness :
    (New "key" "secret" "/cb" []).UnmarshalSession
        (Session.Marshal
          { AuthURL := "https://www.donationalerts.com/oauth/authorize?client_id=key",
            AccessToken := "TOKEN", RefreshToken := "REFRESH_TOKEN",
            ExpiresAt := { year := 2026, month := 11, day := 4, hour := 13, minute := 5,
                           second := 9, nsec := 120000000, offset := 10800, mono := some 77 } })
      = ({ AuthURL := "https://www.donationalerts.com/oauth/authorize?client_id=key",
           AccessToken := "TOKEN", RefreshToken := "REFRESH_TOKEN",
           ExpiresAt := { year := 2026, month := 11, day := 4, hour := 13, minute := 5,
                          second := 9, nsec := 120000000, offset := 10800, mono := none } },
          none) :=
  UnmarshalSession_Marshal (New "key" "secret" "/cb" [])
    { AuthURL := "https://www.donationalerts.com/oauth/authorize?client_id=key",
      AccessToken := "TOKEN", RefreshToken := "REFRESH_TOKEN",
      ExpiresAt := { year := 2026, month := 11, day := 4, hour := 13, minute := 5,
                     second := 9, nsec := 120000000, offset := 10800, mono := some 77 } }
    (by decide) (by decide) (by decide) (by decide)

/-- C1 (counterexample): a session whose expiry is in the year 10000.
`Time.MarshalJSON` fails, `Marshal` drops the error and returns the empty
string, and `UnmarshalSession` of it returns the error `io.EOF` and a session
without the access token. -/
theorem Marshal_year_10000_not_restored :
    ((New "key" "secret" "/cb" []).UnmarshalSession
        (Session.Marshal
          { AuthURL := "", AccessToken := "TOKEN", RefreshToken := "REFRESH_TOKEN",
            ExpiresAt := { Time.zero with year := 10000 } })).2 = some Error.EOF
    ∧ ((New "key" "secret" "/cb" []).UnmarshalSession
        (Session.Marshal
          { AuthURL := "", AccessToken := "TOKEN", RefreshToken := "REFRESH_TOKEN",
            ExpiresAt := { Time.zero with year := 10000 } })).1.AccessToken ≠ "TOKEN" := by
  decide

/-! ## Lemmas on the decoding of the profile -/

theorem decodeFields_unmatched {S : Type}
    (setField : S → Option Error → String → json.Value → json.Result S)
    (l : List (String × json.Value))
    (h : ∀ kv ∈ l, ∀ s saved, setField s saved kv.1 kv.2 = .ok (s, saved))
    (s : S) (saved : Option Error) :
    json.decodeFields setField l s saved = .ok (s, saved) := by
  induction l with
  | nil => rfl
  | cons kv rest ih =>
    obtain ⟨k, v⟩ := kv
    simp only [json.decodeFields]
    rw [h (k, v) (List.mem_cons_self _ _) s saved]
    exact ih (fun kv hkv => h kv (List.mem_cons_of_mem _ hkv))

theorem ProfileData_setField_unmatched (d : ProfileData) (saved : Option Error) (k : String)
    (v : json.Value)
    (h : json.findField ["id", "code", "name", "avatar", "email", "socket_connection_string"] k
      = none) :
    ProfileData.setField d saved k v = .ok (d, saved) := by
  simp [ProfileData.setField, h]

theorem Profile_setField_unmatched (p : Profile) (saved : Option Error) (k : String)
    (v : json.Value) (h : json.findField ["data"] k = none) :
    Profile.setField p saved k v = .ok (p, saved) := by
  simp [Profile.setField, h]

theorem ofInt_int64 (i : Int) (hi : -9223372036854775808 ≤ i ∧ i ≤ 9223372036854775807) :
    (json.Number.ofInt i).int64? = some i := by
  unfold json.Number.int64? json.Number.ofInt
  simp only [and_self, if_true]
  have hv : (if decide (i < 0) = true then -((i.natAbs : Nat) : Int) else ((i.natAbs : Nat) : Int))
      = i := by
    by_cases h : i < 0
    · simp only [h, decide_True, if_true]; omega
    · simp only [h, decide_False]; simp; omega
  simp only [hv]
  rw [if_pos hi]

theorem decodeUserData_value (v : json.Value) (user : User) :
    decodeUserData (json.Text.value v) user =
      match (json.decodeMap user.RawData v).2 with
      | some err => ({ user with RawData := (json.decodeMap user.RawData v).1 }, some err)
      | none =>
        match json.decodeStruct "struct" Profile.setField Profile.zero none v with
        | .error (_, e) => ({ user with RawData := (json.decodeMap user.RawData v).1 }, some e)
        | .ok (_, some e) => ({ user with RawData := (json.decodeMap user.RawData v).1 }, some e)
        | .ok (profile, none) =>
          ({ user with
              RawData := (json.decodeMap user.RawData v).1
              Name := profile.Data.Name
              NickName := profile.Data.Code
              Email := profile.Data.Email
              UserID := strconv.FormatInt profile.Data.Id
              AvatarURL := profile.Data.Avatar }, none) := by
  unfold decodeUserData
  simp only [json.Decode, json.saveError_none_left]
  cases h1 : (json.decodeMap user.RawData v).2 with
  | some err => rfl
  | none =>
    simp only []
    cases h2 : json.decodeStruct "struct" Profile.setField Profile.zero none v with
    | error x => rfl
    | ok r =>
      obtain ⟨profile, saved⟩ := r
      cases saved <;> rfl

theorem FetchUser_body (net : Network) (p : Provider) (s : Session) (bits : json.Text)
    (h : p.fetchUserData net s.AccessToken = (bits, none)) :
    p.FetchUser net s = decodeUserData bits
      { User.zero with Provider := p.Name, AccessToken := s.AccessToken,
                       RefreshToken := s.RefreshToken, ExpiresAt := s.ExpiresAt } := by
  unfold Provider.FetchUser
  simp only [h]

/-- The members of `data` that the profile is read from, in any order and any
number, each with the value of the claim, and members that no field takes. -/
theorem decodeFields_ProfileData_target (i : Int) (c n a e : String)
    (hi : -9223372036854775808 ≤ i ∧ i ≤ 9223372036854775807)
    (l : List (String × json.Value))
    (hl : ∀ kv ∈ l, kv = ("id", json.Value.number (json.Number.ofInt i))
      ∨ kv = ("code", json.Value.string c) ∨ kv = ("name", json.Value.string n)
      ∨ kv = ("avatar", json.Value.string a) ∨ kv = ("email", json.Value.string e)
      ∨ json.findField ["id", "code", "name", "avatar", "email", "socket_connection_string"]
          kv.1 = none)
    (d : ProfileData) (saved : Option Error) :
    ∃ d1, json.decodeFields ProfileData.setField l d saved = .ok (d1, saved)
      ∧ ((d.Id = i ∨ ("id", json.Value.number (json.Number.ofInt i)) ∈ l) → d1.Id = i)
      ∧ ((d.Code = c ∨ ("code", json.Value.string c) ∈ l) → d1.Code = c)
      ∧ ((d.Name = n ∨ ("name", json.Value.string n) ∈ l) → d1.Name = n)
      ∧ ((d.Avatar = a ∨ ("avatar", json.Value.string a) ∈ l) → d1.Avatar = a)
      ∧ ((d.Email = e ∨ ("email", json.Value.string e) ∈ l) → d1.Email = e)
      ∧ d1.SocketConnectionString = d.SocketConnectionString := by
  have f0 : json.findField ["id", "code", "name", "avatar", "email",
      "socket_connection_string"] "id" = some 0 := by decide
  have f1 : json.findField ["id", "code", "name", "avatar", "email",
      "socket_connection_string"] "code" = some 1 := by decide
  have f2 : json.findField ["id", "code", "name", "avatar", "email",
      "socket_connection_string"] "name" = some 2 := by decide
  have f3 : json.findField ["id", "code", "name", "avatar", "email",
      "socket_connection_string"] "avatar" = some 3 := by decide
  have f4 : json.findField ["id", "code", "name", "avatar", "email",
      "socket_connection_string"] "email" = some 4 := by decide
  induction l generalizing d saved with
  | nil =>
    refine ⟨d, rfl, ?_, ?_, ?_, ?_, ?_, rfl⟩ <;>
      · intro h
        rcases h with h | h
        · exact h
        · cases h
  | cons kv rest ih =>
    have hrest : ∀ kv ∈ rest, kv = ("id", json.Value.number (json.Number.ofInt i))
        ∨ kv = ("code", json.Value.string c) ∨ kv = ("name", json.Value.string n)
        ∨ kv = ("avatar", json.Value.string a) ∨ kv = ("email", json.Value.string e)
        ∨ json.findField ["id", "code", "name", "avatar", "email", "socket_connection_string"]
            kv.1 = none := fun kv hkv => hl kv (List.mem_cons_of_mem _ hkv)
    rcases hl kv (List.mem_cons_self _ _) with h | h | h | h | h | h
    · subst h
      obtain ⟨d1, hd, h1, h2, h3, h4, h5, h6⟩ := ih hrest { d with Id := i } saved
      refine ⟨d1, ?_, fun _ => h1 (Or.inl rfl), ?_, ?_, ?_, ?_, h6⟩
      · simp only [json.decodeFields, ProfileData.setField, f0, json.decodeInt64,
          ofInt_int64 i hi, json.saveError_none_right]
        exact hd
      · intro h; apply h2; rcases h with h | h
        · exact Or.inl h
        · exact Or.inr (by simpa using h)
      · intro h; apply h3; rcases h with h | h
        · exact Or.inl h
        · exact Or.inr (by simpa using h)
      · intro h; apply h4; rcases h with h | h
        · exact Or.inl h
        · exact Or.inr (by simpa using h)
      · intro h; apply h5; rcases h with h | h
        · exact Or.inl h
        · exact Or.inr (by simpa using h)
    · subst h
      obtain ⟨d1, hd, h1, h2, h3, h4, h5, h6⟩ := ih hrest { d with Code := c } saved
      refine ⟨d1, ?_, ?_, fun _ => h2 (Or.inl rfl), ?_, ?_, ?_, h6⟩
      · simp only [json.decodeFields, ProfileData.setField, f1, json.decodeString,
          json.saveError_none_right]
        exact hd
      · intro h; apply h1; rcases h with h | h
        · exact Or.inl h
        · exact Or.inr (by simpa using h)
      · intro h; apply h3; rcases h with h | h
        · exact Or.inl h
        · exact Or.inr (by simpa using h)
      · intro h; apply h4; rcases h with h | h
        · exact Or.inl h
        · exact Or.inr (by simpa using h)
      · intro h; apply h5; rcases h with h | h
        · exact Or.inl h
        · exact Or.inr (by simpa using h)
    · subst h
      obtain ⟨d1, hd, h1, h2, h3, h4, h5, h6⟩ := ih hrest { d with Name := n } saved
      refine ⟨d1, ?_, ?_, ?_, fun _ => h3 (Or.inl rfl), ?_, ?_, h6⟩
      · simp only [json.decodeFields, ProfileData.setField, f2, json.decodeString,
          json.saveError_none_right]
        exact hd
      · intro h; apply h1; rcases h with h | h
        · exact Or.inl h
        · exact Or.inr (by simpa using h)
      · intro h; apply h2; rcases h with h | h
        · exact Or.inl h
        · exact Or.inr (by simpa using h)
      · intro h; apply h4; rcases h with h | h
        · exact Or.inl h
        · exact Or.inr (by simpa using h)
      · intro h; apply h5; rcases h with h | h
        · exact Or.inl h
        · exact Or.inr (by simpa using h)
    · subst h
      obtain ⟨d1, hd, h1, h2, h3, h4, h5, h6⟩ := ih hrest { d with Avatar := a } saved
      refine ⟨d1, ?_, ?_, ?_, ?_, fun _ => h4 (Or.inl rfl), ?_, h6⟩
      · simp only [json.decodeFields, ProfileData.setField, f3, json.decodeString,
          json.saveError_none_right]
        exact hd
      · intro h; apply h1; rcases h with h | h
        · exact Or.inl h
        · exact Or.inr (by simpa using h)
      · intro h; apply h2; rcases h with h | h
        · exact Or.inl h
        · exact Or.inr (by simpa using h)
      · intro h; apply h3; rcases h with h | h
        · exact Or.inl h
        · exact Or.inr (by simpa using h)
      · intro h; apply h5; rcases h with h | h
        · exact Or.inl h
        · exact Or.inr (by simpa using h)
    · subst h
      obtain ⟨d1, hd, h1, h2, h3, h4, h5, h6⟩ := ih hrest { d with Email := e } saved
      refine ⟨d1, ?_, ?_, ?_, ?_, ?_, fun _ => h5 (Or.inl rfl), h6⟩
      · simp only [json.decodeFields, ProfileData.setField, f4, json.decodeString,
          json.saveError_none_right]
        exact hd
      · intro h; apply h1; rcases h with h | h
        · exact Or.inl h
        · exact Or.inr (by simpa using h)
      · intro h; apply h2; rcases h with h | h
        · exact Or.inl h
        · exact Or.inr (by simpa using h)
      · intro h; apply h3; rcases h with h | h
        · exact Or.inl h
        · exact Or.inr (by simpa using h)
      · intro h; apply h4; rcases h with h | h
        · exact Or.inl h
        · exact Or.inr (by simpa using h)
    · obtain ⟨k, v⟩ := kv
      obtain ⟨d1, hd, h1, h2, h3, h4, h5, h6⟩ := ih hrest d saved
      have hk : k ≠ "id" ∧ k ≠ "code" ∧ k ≠ "name" ∧ k ≠ "avatar" ∧ k ≠ "email" := by
        refine ⟨?_, ?_, ?_, ?_, ?_⟩ <;>
          · intro hk
            subst hk
            simp only at h
            first
              | exact absurd (f0.symm.trans h) (by simp)
              | exact absurd (f1.symm.trans h) (by simp)
              | exact absurd (f2.symm.trans h) (by simp)
              | exact absurd (f3.symm.trans h) (by simp)
              | exact absurd (f4.symm.trans h) (by simp)
      refine ⟨d1, ?_, ?_, ?_, ?_, ?_, ?_, h6⟩
      · simp only [json.decodeFields, ProfileData_setField_unmatched d saved k v h]
        exact hd
      · intro h; apply h1; rcases h with h | h
        · exact Or.inl h
        · exact Or.inr (by simpa [Ne.symm hk.1] using h)
      · intro h; apply h2; rcases h with h | h
        · exact Or.inl h
        · exact Or.inr (by simpa [Ne.symm hk.2.1] using h)
      · intro h; apply h3; rcases h with h | h
        · exact Or.inl h
        · exact Or.inr (by simpa [Ne.symm hk.2.2.1] using h)
      · intro h; apply h4; rcases h with h | h
        · exact Or.inl h
        · exact Or.inr (by simpa [Ne.symm hk.2.2.2.1] using h)
      · intro h; apply h5; rcases h with h | h
        · exact Or.inl h
        · exact Or.inr (by simpa [Ne.symm hk.2.2.2.2] using h)
theorem decodeFields_ProfileData_eq (i : Int) (c n a e : String)
    (hi : -9223372036854775808 ≤ i ∧ i ≤ 9223372036854775807)
    (l : List (String × json.Value))
    (hl : ∀ kv ∈ l, kv = ("id", json.Value.number (json.Number.ofInt i))
      ∨ kv = ("code", json.Value.string c) ∨ kv = ("name", json.Value.string n)
      ∨ kv = ("avatar", json.Value.string a) ∨ kv = ("email", json.Value.string e)
      ∨ json.findField ["id", "code", "name", "avatar", "email", "socket_connection_string"]
          kv.1 = none)
    (hid : ("id", json.Value.number (json.Number.ofInt i)) ∈ l)
    (hcode : ("code", json.Value.string c) ∈ l) (hname : ("name", json.Value.string n) ∈ l)
    (havatar : ("avatar", json.Value.string a) ∈ l)
    (hemail : ("email", json.Value.string e) ∈ l)
    (d : ProfileData) (saved : Option Error) (hd : d.SocketConnectionString = "") :
    json.decodeFields ProfileData.setField l d saved
      = .ok ({ Id := i, Code := c, Name := n, Avatar := a, Email := e,
               SocketConnectionString := "" }, saved) := by
  obtain ⟨d1, h0, h1, h2, h3, h4, h5, h6⟩ :=
    decodeFields_ProfileData_target i c n a e hi l hl d saved
  rw [h0]
  have e1 := h1 (Or.inr hid)
  have e2 := h2 (Or.inr hcode)
  have e3 := h3 (Or.inr hname)
  have e4 := h4 (Or.inr havatar)
  have e5 := h5 (Or.inr hemail)
  have e6 := h6.trans hd
  cases d1
  simp only at e1 e2 e3 e4 e5 e6
  subst e1 e2 e3 e4 e5 e6
  rfl

theorem decodeFields_Profile_target (T : ProfileData) (dkvs : List (String × json.Value))
    (hT : T.SocketConnectionString = "")
    (hdec : ∀ d saved, d.SocketConnectionString = "" →
      json.decodeFields ProfileData.setField dkvs d saved = .ok (T, saved))
    (l : List (String × json.Value))
    (hl : ∀ kv ∈ l, kv = ("data", json.Value.object dkvs) ∨ json.findField ["data"] kv.1 = none)
    (p : Profile) (saved : Option Error) (hp : p.Data.SocketConnectionString = "") :
    ∃ p1, json.decodeFields Profile.setField l p saved = .ok (p1, saved)
      ∧ ((p.Data = T ∨ ("data", json.Value.object dkvs) ∈ l) → p1.Data = T)
      ∧ p1.Data.SocketConnectionString = "" := by
  have g0 : json.findField ["data"] "data" = some 0 := by decide
  induction l generalizing p saved with
  | nil =>
    refine ⟨p, rfl, ?_, hp⟩
    intro h
    rcases h with h | h
    · exact h
    · cases h
  | cons kv rest ih =>
    have hrest : ∀ kv ∈ rest, kv = ("data", json.Value.object dkvs)
        ∨ json.findField ["data"] kv.1 = none := fun kv hkv => hl kv (List.mem_cons_of_mem _ hkv)
    rcases hl kv (List.mem_cons_self _ _) with h | h
    · subst h
      obtain ⟨p1, h0, h1, h2⟩ := ih hrest { p with Data := T } saved hT
      refine ⟨p1, ?_, fun _ => h1 (Or.inl rfl), h2⟩
      simp only [json.decodeFields, Profile.setField, g0, json.decodeStruct, hdec p.Data saved hp]
      exact h0
    · obtain ⟨k, v⟩ := kv
      obtain ⟨p1, h0, h1, h2⟩ := ih hrest p saved hp
      have hk : "data" ≠ k := by
        intro hk
        subst hk
        exact absurd (g0.symm.trans h) (by simp)
      refine ⟨p1, ?_, ?_, h2⟩
      · simp only [json.decodeFields, Profile_setField_unmatched p saved k v h]
        exact h0
      · intro h'
        apply h1
        rcases h' with h' | h'
        · exact Or.inl h'
        · exact Or.inr (by simpa [hk] using h')

theorem decodeProfile_members (i : Int) (c n a e : String)
    (hi : -9223372036854775808 ≤ i ∧ i ≤ 9223372036854775807)
    (kvs dkvs : List (String × json.Value))
    (hdata : ("data", json.Value.object dkvs) ∈ kvs)
    (hkvs : ∀ kv ∈ kvs, kv = ("data", json.Value.object dkvs)
      ∨ json.findField ["data"] kv.1 = none)
    (hdkvs : ∀ kv ∈ dkvs, kv = ("id", json.Value.number (json.Number.ofInt i))
      ∨ kv = ("code", json.Value.string c) ∨ kv = ("name", json.Value.string n)
      ∨ kv = ("avatar", json.Value.string a) ∨ kv = ("email", json.Value.string e)
      ∨ json.findField ["id", "code", "name", "avatar", "email", "socket_connection_string"]
          kv.1 = none)
    (hid : ("id", json.Value.number (json.Number.ofInt i)) ∈ dkvs)
    (hcode : ("code", json.Value.string c) ∈ dkvs)
    (hname : ("name", json.Value.string n) ∈ dkvs)
    (havatar : ("avatar", json.Value.string a) ∈ dkvs)
    (hemail : ("email", json.Value.string e) ∈ dkvs) :
    json.decodeStruct "struct" Profile.setField Profile.zero none (.object kvs)
      = .ok ({ Data := { Id := i, Code := c, Name := n, Avatar := a, Email := e,
                         SocketConnectionString := "" } }, none) := by
  obtain ⟨p1, h0, h1, _⟩ := decodeFields_Profile_target
    { Id := i, Code := c, Name := n, Avatar := a, Email := e, SocketConnectionString := "" }
    dkvs rfl
    (fun d saved hd => decodeFields_ProfileData_eq i c n a e hi dkvs hdkvs hid hcode hname
      havatar hemail d saved hd)
    kvs hkvs Profile.zero none rfl
  simp only [json.decodeStruct]
  rw [h0]
  have := h1 (Or.inr hdata)
  cases p1
  simp only at this
  subst this
  rfl

/-- C5 (as amended): when the profile request succeeds with a body that is a
JSON object with a member `data` that is an object with the members `id: i`,
`code: c`, `name: n`, `avatar: a` and `email: e`, in any order, where `i` is an
integer literal within the range of `int64`, every further member of the body
and of `data` has a name that is not, under case folding, the name of a decoded
field, and every number in the body is within the range of `float64`,
`FetchUser` returns no error and a user with `UserID` the decimal string of
`i`, `NickName = c`, `Name = n`, `AvatarURL = a`, `Email = e`, `Provider` the
provider's `Name()`, and `AccessToken`, `RefreshToken` and `ExpiresAt` those of
the session. -/
theorem FetchUser_profile (net : Network) (p : Provider) (s : Session) (i : Int)
    (c n a e : String) (kvs dkvs : List (String × json.Value))
    (hfetch : p.fetchUserData net s.AccessToken = (json.Text.value (.object kvs), none))
    (hi : -9223372036854775808 ≤ i ∧ i ≤ 9223372036854775807)
    (hdata : ("data", json.Value.object dkvs) ∈ kvs)
    (hkvs : ∀ kv ∈ kvs, kv = ("data", json.Value.object dkvs)
      ∨ json.findField ["data"] kv.1 = none)
    (hdkvs : ∀ kv ∈ dkvs, kv = ("id", json.Value.number (json.Number.ofInt i))
      ∨ kv = ("code", json.Value.string c) ∨ kv = ("name", json.Value.string n)
      ∨ kv = ("avatar", json.Value.string a) ∨ kv = ("email", json.Value.string e)
      ∨ json.findField ["id", "code", "name", "avatar", "email", "socket_connection_string"]
          kv.1 = none)
    (hid : ("id", json.Value.number (json.Number.ofInt i)) ∈ dkvs)
    (hcode : ("code", json.Value.string c) ∈ dkvs)
    (hname : ("name", json.Value.string n) ∈ dkvs)
    (havatar : ("avatar", json.Value.string a) ∈ dkvs)
    (hemail : ("email", json.Value.string e) ∈ dkvs)
    (hfit : json.membersFit kvs = true) :
    (p.FetchUser net s).2 = none
    ∧ (p.FetchUser net s).1.UserID = strconv.FormatInt i
    ∧ (p.FetchUser net s).1.NickName = c
    ∧ (p.FetchUser net s).1.Name = n
    ∧ (p.FetchUser net s).1.AvatarURL = a
    ∧ (p.FetchUser net s).1.Email = e
    ∧ (p.FetchUser net s).1.Provider = p.Name
    ∧ (p.FetchUser net s).1.AccessToken = s.AccessToken
    ∧ (p.FetchUser net s).1.RefreshToken = s.RefreshToken
    ∧ (p.FetchUser net s).1.ExpiresAt = s.ExpiresAt := by
  have h1 : ∀ cur, (json.decodeMap cur (.object kvs)).2 = none :=
    fun cur => json.objectInterface_fits kvs _ hfit
  rw [FetchUser_body net p s _ hfetch, decodeUserData_value, h1,
    decodeProfile_members i c n a e hi kvs dkvs hdata hkvs hdkvs hid hcode hname havatar hemail]
  exact ⟨rfl, rfl, rfl, rfl, rfl, rfl, rfl, rfl, rfl, rfl⟩

set_option maxRecDepth 100000 in
set_option exponentiation.threshold 2000 in
/-- The response of the repository's test `TestProvider_FetchUser`, at which
the amended C5 is instantiated: the id 3 gives the `UserID` "3". -/
theorem FetchUser_profile_witness :
    let net : Network :=
      { NewRequest := fun _ _ => none
        Do := fun _ _ => .ok (json.Text.value (.object [("data", .object
          [("id", .number (json.Number.ofInt 3)), ("code", .string "tris_the_jam_master"),
           ("name", .string "Tris_the_Jam_Master"),
           ("avatar", .string "https://static-cdn.jtvnw.net/jtv_user_pictures/tris_the_jam_master-profile_image-c084755ce36ab72b-300x300.jpeg"),
           ("email", .string "sergey@donationalerts.com"),
           ("socket_connection_token", .string "yeJ0eXTYOiJKV1RiLCKhbGciOiJIU4.iJIUfeyJzdeyJzd.GciJIUfiOas_FCvQTYAA8usfsTYYFD")])]),
          none) }
    let s : Session := { Session.zero with AccessToken := "TOKEN", RefreshToken := "REFRESH_TOKEN" }
    let p := New "donationalerts_key" "donationalerts_secret" "/foo" []
    (p.FetchUser net s).2 = none
    ∧ (p.FetchUser net s).1.UserID = "3"
    ∧ (p.FetchUser net s).1.Name = "Tris_the_Jam_Master"
    ∧ (p.FetchUser net s).1.Email = "sergey@donationalerts.com"
    ∧ (p.FetchUser net s).1.Provider = "donationalerts"
    ∧ (p.FetchUser net s).1.AccessToken = "TOKEN"
    ∧ (p.FetchUser net s).1.RefreshToken = "REFRESH_TOKEN" := by
  intro net s p
  have h := FetchUser_profile net p s 3 "tris_the_jam_master" "Tris_the_Jam_Master"
    "https://static-cdn.jtvnw.net/jtv_user_pictures/tris_the_jam_master-profile_image-c084755ce36ab72b-300x300.jpeg"
    "sergey@donationalerts.com"
    [("data", .object
      [("id", .number (json.Number.ofInt 3)), ("code", .string "tris_the_jam_master"),
       ("name", .string "Tris_the_Jam_Master"),
       ("avatar", .string "https://static-cdn.jtvnw.net/jtv_user_pictures/tris_the_jam_master-profile_image-c084755ce36ab72b-300x300.jpeg"),
       ("email", .string "sergey@donationalerts.com"),
       ("socket_connection_token", .string "yeJ0eXTYOiJKV1RiLCKhbGciOiJIU4.iJIUfeyJzdeyJzd.GciJIUfiOas_FCvQTYAA8usfsTYYFD")])]
    [("id", .number (json.Number.ofInt 3)), ("code", .string "tris_the_jam_master"),
     ("name", .string "Tris_the_Jam_Master"),
     ("avatar", .string "https://static-cdn.jtvnw.net/jtv_user_pictures/tris_the_jam_master-profile_image-c084755ce36ab72b-300x300.jpeg"),
     ("email", .string "sergey@donationalerts.com"),
     ("socket_connection_token", .string "yeJ0eXTYOiJKV1RiLCKhbGciOiJIU4.iJIUfeyJzdeyJzd.GciJIUfiOas_FCvQTYAA8usfsTYYFD")]
    rfl (by decide) (List.mem_cons_self _ _)
    (by
      intro kv hkv
      rw [List.mem_singleton] at hkv
      exact Or.inl hkv)
    (by
      intro kv hkv
      simp only [List.mem_cons, List.mem_singleton, List.not_mem_nil, or_false] at hkv
      have hlast : json.findField
          ["id", "code", "name", "avatar", "email", "socket_connection_string"]
          "socket_connection_token" = none := by decide
      rcases hkv with rfl | rfl | rfl | rfl | rfl | rfl <;> simp [hlast])
    (by simp) (by simp) (by simp) (by simp) (by simp) rfl
  exact ⟨h.1, h.2.1, h.2.2.2.1, h.2.2.2.2.2.1, h.2.2.2.2.2.2.1, h.2.2.2.2.2.2.2.1,
    h.2.2.2.2.2.2.2.2.1⟩

set_option maxRecDepth 100000 in
set_option exponentiation.threshold 2000 in
/-- C5 (counterexample): the body `{"data":{"id":9223372036854775808,
"code":"c","name":"n","avatar":"a","email":"e"}}` has the shape of the claim
with an integer id, and `FetchUser` returns an error: the id does not fit the
`int64` it is decoded into. -/
theorem FetchUser_id_out_of_int64 :
    ((New "donationalerts_key" "donationalerts_secret" "/foo" []).FetchUser
      { NewRequest := fun _ _ => none
        Do := fun _ _ => .ok (json.Text.value (.object [("data", .object
          [("id", .number (json.Number.ofInt 9223372036854775808)), ("code", .string "c"),
           ("name", .string "n"), ("avatar", .string "a"), ("email", .string "e")])]), none) }
      { Session.zero with AccessToken := "TOKEN" }).2
      = some (Error.UnmarshalTypeError "number" "int64") := by
  decide

/-! ## Lemmas on the errors of decoding the profile -/

theorem decodeFields_saved {S : Type}
    (setField : S → Option Error → String → json.Value → json.Result S)
    (hpres : ∀ s saved k v, saved ≠ none → (setField s saved k v).err ≠ none)
    (l : List (String × json.Value)) (s : S) (saved : Option Error) (h : saved ≠ none) :
    (json.decodeFields setField l s saved).err ≠ none := by
  induction l generalizing s saved with
  | nil => exact h
  | cons kv rest ih =>
    obtain ⟨k, v⟩ := kv
    simp only [json.decodeFields]
    have hp := hpres s saved k v h
    cases hsf : setField s saved k v with
    | error x => simp [json.Result.err]
    | ok r =>
      obtain ⟨s1, saved1⟩ := r
      rw [hsf] at hp
      exact ih s1 saved1 hp

theorem decodeFields_error_at {S : Type}
    (setField : S → Option Error → String → json.Value → json.Result S)
    (hpres : ∀ s saved k v, saved ≠ none → (setField s saved k v).err ≠ none)
    (l : List (String × json.Value)) (k : String) (v : json.Value) (hmem : (k, v) ∈ l)
    (hbad : ∀ s saved, (setField s saved k v).err ≠ none)
    (s : S) (saved : Option Error) :
    (json.decodeFields setField l s saved).err ≠ none := by
  induction l generalizing s saved with
  | nil => cases hmem
  | cons kv rest ih =>
    obtain ⟨k0, v0⟩ := kv
    simp only [json.decodeFields]
    cases hsf : setField s saved k0 v0 with
    | error x => simp [json.Result.err]
    | ok r =>
      obtain ⟨s1, saved1⟩ := r
      rcases List.mem_cons.mp hmem with heq | hrest
      · have hb := hbad s saved
        simp only [Prod.mk.injEq] at heq
        rw [heq.1, heq.2, hsf] at hb
        exact decodeFields_saved setField hpres rest s1 saved1 hb
      · exact ih hrest s1 saved1

theorem ProfileData_setField_pres (d : ProfileData) (saved : Option Error) (k : String)
    (v : json.Value) (h : saved ≠ none) : (ProfileData.setField d saved k v).err ≠ none := by
  unfold ProfileData.setField
  split <;> first
    | exact json.saveError_ne_none_left _ _ h
    | exact h

theorem decodeStruct_ProfileData_pres (d : ProfileData) (saved : Option Error) (v : json.Value)
    (h : saved ≠ none) :
    (json.decodeStruct "struct" ProfileData.setField d saved v).err ≠ none := by
  cases v with
  | null => exact h
  | object kvs => exact decodeFields_saved _ ProfileData_setField_pres kvs d saved h
  | bool b => exact json.saveError_ne_none_left _ _ h
  | number n => exact json.saveError_ne_none_left _ _ h
  | string s => exact json.saveError_ne_none_left _ _ h
  | array xs => exact json.saveError_ne_none_left _ _ h

theorem Profile_setField_err (p : Profile) (saved : Option Error) (k : String) (v : json.Value) :
    (Profile.setField p saved k v).err =
      match json.findField ["data"] k with
      | some 0 => (json.decodeStruct "struct" ProfileData.setField p.Data saved v).err
      | _ => saved := by
  unfold Profile.setField
  split
  · cases hd : json.decodeStruct "struct" ProfileData.setField p.Data saved v with
    | error x => rfl
    | ok r => rfl
  · rfl

theorem Profile_setField_pres (p : Profile) (saved : Option Error) (k : String)
    (v : json.Value) (h : saved ≠ none) : (Profile.setField p saved k v).err ≠ none := by
  rw [Profile_setField_err]
  split
  · exact decodeStruct_ProfileData_pres _ _ _ h
  · exact h
theorem ProfileData_setField_Id (d d1 : ProfileData) (saved saved1 : Option Error) (k : String)
    (v : json.Value)
    (hk : json.findField ["id", "code", "name", "avatar", "email", "socket_connection_string"] k
      ≠ some 0)
    (h : ProfileData.setField d saved k v = .ok (d1, saved1)) : d1.Id = d.Id := by
  unfold ProfileData.setField at h
  split at h
  · rename_i heq
    exact absurd heq hk
  all_goals
    simp only [Except.ok.injEq, Prod.mk.injEq] at h
    rw [← h.1]

theorem decodeFields_ProfileData_Id (l : List (String × json.Value))
    (hl : ∀ kv ∈ l,
      json.findField ["id", "code", "name", "avatar", "email", "socket_connection_string"] kv.1
        ≠ some 0)
    (d d1 : ProfileData) (saved saved1 : Option Error)
    (h : json.decodeFields ProfileData.setField l d saved = .ok (d1, saved1)) : d1.Id = d.Id := by
  induction l generalizing d saved with
  | nil =>
    simp only [json.decodeFields, Except.ok.injEq, Prod.mk.injEq] at h
    rw [← h.1]
  | cons kv rest ih =>
    obtain ⟨k, v⟩ := kv
    simp only [json.decodeFields] at h
    cases hsf : ProfileData.setField d saved k v with
    | error x => rw [hsf] at h; cases h
    | ok r =>
      obtain ⟨d2, saved2⟩ := r
      rw [hsf] at h
      have h1 := ih (fun kv hkv => hl kv (List.mem_cons_of_mem _ hkv)) d2 saved2 h
      have h2 := ProfileData_setField_Id d d2 saved saved2 k v
        (hl (k, v) (List.mem_cons_self _ _)) hsf
      rw [h1, h2]

theorem Profile_setField_Id (p p1 : Profile) (saved saved1 : Option Error) (k : String)
    (v : json.Value)
    (hv : ∀ dkvs, v = json.Value.object dkvs → json.findField ["data"] k = some 0 →
      ∀ kv ∈ dkvs,
        json.findField ["id", "code", "name", "avatar", "email", "socket_connection_string"] kv.1
          ≠ some 0)
    (h : Profile.setField p saved k v = .ok (p1, saved1)) : p1.Data.Id = p.Data.Id := by
  unfold Profile.setField at h
  split at h
  · rename_i heq
    cases v with
    | object dkvs =>
      simp only [json.decodeStruct] at h
      cases hd : json.decodeFields ProfileData.setField dkvs p.Data saved with
      | error x =>
        rw [hd] at h
        obtain ⟨a, b⟩ := x
        cases h
      | ok r =>
        obtain ⟨d2, saved2⟩ := r
        rw [hd] at h
        simp only [Except.ok.injEq, Prod.mk.injEq] at h
        rw [← h.1]
        exact decodeFields_ProfileData_Id dkvs (hv dkvs rfl heq) p.Data d2 saved saved2 hd
    | null =>
      simp only [json.decodeStruct, Except.ok.injEq, Prod.mk.injEq] at h
      rw [← h.1]
    | bool b =>
      simp only [json.decodeStruct, Except.ok.injEq, Prod.mk.injEq] at h
      rw [← h.1]
    | number n =>
      simp only [json.decodeStruct, Except.ok.injEq, Prod.mk.injEq] at h
      rw [← h.1]
    | string s =>
      simp only [json.decodeStruct, Except.ok.injEq, Prod.mk.injEq] at h
      rw [← h.1]
    | array xs =>
      simp only [json.decodeStruct, Except.ok.injEq, Prod.mk.injEq] at h
      rw [← h.1]
  · simp only [Except.ok.injEq, Prod.mk.injEq] at h
    rw [← h.1]

theorem decodeFields_Profile_Id (l : List (String × json.Value)) (hl : json.noId l)
    (p p1 : Profile) (saved saved1 : Option Error)
    (h : json.decodeFields Profile.setField l p saved = .ok (p1, saved1)) :
    p1.Data.Id = p.Data.Id := by
  induction l generalizing p saved with
  | nil =>
    simp only [json.decodeFields, Except.ok.injEq, Prod.mk.injEq] at h
    rw [← h.1]
  | cons kv rest ih =>
    obtain ⟨k, v⟩ := kv
    simp only [json.decodeFields] at h
    cases hsf : Profile.setField p saved k v with
    | error x => rw [hsf] at h; cases h
    | ok r =>
      obtain ⟨p2, saved2⟩ := r
      rw [hsf] at h
      have h1 := ih (fun k dkvs hm => hl k dkvs (List.mem_cons_of_mem _ hm)) p2 saved2 h
      have h2 := Profile_setField_Id p p2 saved saved2 k v
        (fun dkvs hd hf => hl k dkvs (by rw [hd]; exact List.mem_cons_self _ _) hf) hsf
      rw [h1, h2]
theorem decodeUserData_err_of_profile (kvs : List (String × json.Value)) (user : User)
    (h : (json.decodeFields Profile.setField kvs Profile.zero none).err ≠ none) :
    (decodeUserData (json.Text.value (.object kvs)) user).2 ≠ none := by
  rw [decodeUserData_value]
  cases h1 : (json.decodeMap user.RawData (.object kvs)).2 with
  | some err => simp
  | none =>
    simp only [json.decodeStruct]
    cases h2 : json.decodeFields Profile.setField kvs Profile.zero none with
    | error x => simp
    | ok r =>
      obtain ⟨profile, saved⟩ := r
      rw [h2] at h
      cases saved with
      | none => exact absurd rfl h
      | some e => simp

/-- C6 (as amended): `decodeUserData` returns an error when the body has a
`data` member that is neither an object nor `null`, and when the `data` object
has an `id` member that is neither `null` nor an integer literal within the
range of `int64`.  A body that is a JSON object without an `id` in any `data`
member is not an error on that account: whenever the call returns no error
for it, the user has the `UserID` "0".  A body without a `data` member, whose
numbers are within the range of `float64`, is decoded without error, into the
`UserID` "0" and the empty `Name`, `NickName`, `Email` and `AvatarURL`. -/
theorem decodeUserData_data_and_id (user : User) (kvs dkvs : List (String × json.Value))
    (d v : json.Value) :
    ((("data", d) ∈ kvs ∧ d ≠ .null ∧ ∀ x, d ≠ .object x) →
      (decodeUserData (json.Text.value (.object kvs)) user).2 ≠ none)
    ∧ ((("data", json.Value.object dkvs) ∈ kvs ∧ ("id", v) ∈ dkvs ∧ v ≠ .null
        ∧ ∀ n, v = .number n → n.int64? = none) →
      (decodeUserData (json.Text.value (.object kvs)) user).2 ≠ none)
    ∧ ((json.noId kvs ∧ (decodeUserData (json.Text.value (.object kvs)) user).2 = none) →
      (decodeUserData (json.Text.value (.object kvs)) user).1.UserID = "0")
    ∧ (((∀ kv ∈ kvs, json.findField ["data"] kv.1 = none) ∧ json.membersFit kvs = true) →
      (decodeUserData (json.Text.value (.object kvs)) user).2 = none
      ∧ (decodeUserData (json.Text.value (.object kvs)) user).1.UserID = "0"
      ∧ (decodeUserData (json.Text.value (.object kvs)) user).1.Name = ""
      ∧ (decodeUserData (json.Text.value (.object kvs)) user).1.NickName = ""
      ∧ (decodeUserData (json.Text.value (.object kvs)) user).1.Email = ""
      ∧ (decodeUserData (json.Text.value (.object kvs)) user).1.AvatarURL = "") := by
  have g0 : json.findField ["data"] "data" = some 0 := by decide
  have f0 : json.findField ["id", "code", "name", "avatar", "email",
      "socket_connection_string"] "id" = some 0 := by decide
  refine ⟨?_, ?_, ?_, ?_⟩
  · rintro ⟨hmem, hnull, hobj⟩
    apply decodeUserData_err_of_profile
    apply decodeFields_error_at _ Profile_setField_pres kvs "data" d hmem
    intro p saved
    rw [Profile_setField_err, g0]
    cases d with
    | null => exact absurd rfl hnull
    | object x => exact absurd rfl (hobj x)
    | bool b => cases saved <;> simp [json.decodeStruct, json.saveError, json.Result.err]
    | number n => cases saved <;> simp [json.decodeStruct, json.saveError, json.Result.err]
    | string s => cases saved <;> simp [json.decodeStruct, json.saveError, json.Result.err]
    | array xs => cases saved <;> simp [json.decodeStruct, json.saveError, json.Result.err]
  · rintro ⟨hmem, hid, hnull, hnum⟩
    apply decodeUserData_err_of_profile
    apply decodeFields_error_at _ Profile_setField_pres kvs "data" (.object dkvs) hmem
    intro p saved
    rw [Profile_setField_err, g0]
    simp only [json.decodeStruct]
    apply decodeFields_error_at _ ProfileData_setField_pres dkvs "id" v hid
    intro dd saved'
    simp only [ProfileData.setField, f0]
    cases v with
    | null => exact absurd rfl hnull
    | number n =>
      cases saved' <;> simp [json.decodeInt64, hnum n rfl, json.saveError, json.Result.err]
    | object x => cases saved' <;> simp [json.decodeInt64, json.saveError, json.Result.err]
    | bool b => cases saved' <;> simp [json.decodeInt64, json.saveError, json.Result.err]
    | string s => cases saved' <;> simp [json.decodeInt64, json.saveError, json.Result.err]
    | array xs => cases saved' <;> simp [json.decodeInt64, json.saveError, json.Result.err]
  · rintro ⟨hno, hok⟩
    rw [decodeUserData_value] at hok ⊢
    cases h1 : (json.decodeMap user.RawData (.object kvs)).2 with
    | some err => rw [h1] at hok; simp at hok
    | none =>
      rw [h1] at hok
      simp only [json.decodeStruct] at hok ⊢
      cases h2 : json.decodeFields Profile.setField kvs Profile.zero none with
      | error x => rw [h2] at hok; simp at hok
      | ok r =>
        obtain ⟨profile, saved⟩ := r
        rw [h2] at hok
        cases saved with
        | some e => simp at hok
        | none =>
          have hid := decodeFields_Profile_Id kvs hno Profile.zero profile none none h2
          simp only [hid]
          decide
  · rintro ⟨hno, hfit⟩
    have h1 : (json.decodeMap user.RawData (.object kvs)).2 = none :=
      json.objectInterface_fits kvs _ hfit
    have h2 : json.decodeStruct "struct" Profile.setField Profile.zero none (.object kvs)
        = .ok (Profile.zero, none) :=
      decodeFields_unmatched Profile.setField kvs
        (fun kv hkv p saved => Profile_setField_unmatched p saved kv.1 kv.2 (hno kv hkv))
        Profile.zero none
    have h0 : strconv.FormatInt Profile.zero.Data.Id = "0" := by decide
    rw [decodeUserData_value, h1, h2]
    exact ⟨rfl, h0, rfl, rfl, rfl, rfl⟩

/-- The bodies `{"data":"x"}`, `{"data":{"id":"3"}}` and `{"data":{"name":"n"}}`,
at which the amended C6 is instantiated: the first two are errors, the third
gives the `UserID` "0". -/
theorem decodeUserData_data_and_id_witness :
    (decodeUserData (json.Text.value (.object [("data", .string "x")])) User.zero).2 ≠ none
    ∧ (decodeUserData (json.Text.value (.object [("data", .object [("id", .string "3")])]))
        User.zero).2 ≠ none
    ∧ (decodeUserData (json.Text.value (.object [("data", .object [("name", .string "n")])]))
        User.zero).1.UserID = "0" :=
  ⟨(decodeUserData_data_and_id User.zero [("data", .string "x")] [] (.string "x") .null).1
      ⟨by simp, by simp, by simp⟩,
   (decodeUserData_data_and_id User.zero [("data", .object [("id", .string "3")])]
      [("id", .string "3")] .null (.string "3")).2.1 ⟨by simp, by simp, by simp, by simp⟩,
   (decodeUserData_data_and_id User.zero [("data", .object [("name", .string "n")])]
      [] .null .null).2.2.1
      ⟨by
        intro k dkvs hm _ kv hkv
        simp only [List.mem_singleton, Prod.mk.injEq, json.Value.object.injEq] at hm
        rw [hm.2] at hkv
        simp only [List.mem_singleton] at hkv
        rw [hkv]
        decide,
       by decide⟩⟩

/-- C6 (counterexample): for the body `{}`, valid JSON without the `data`
object, `decodeUserData` and `FetchUser` return no error, and the user has
the defaulted `UserID` "0" and an empty name. -/
theorem decodeUserData_empty_object :
    (decodeUserData (json.Text.value (.object [])) User.zero).2 = none
    ∧ (decodeUserData (json.Text.value (.object [])) User.zero).1.UserID = "0"
    ∧ ((New "donationalerts_key" "donationalerts_secret" "/foo" []).FetchUser
        { NewRequest := fun _ _ => none
          Do := fun _ _ => .ok (json.Text.value (.object []), none) }
        { Session.zero with AccessToken := "TOKEN" }).2 = none
    ∧ ((New "donationalerts_key" "donationalerts_secret" "/foo" []).FetchUser
        { NewRequest := fun _ _ => none
          Do := fun _ _ => .ok (json.Text.value (.object []), none) }
        { Session.zero with AccessToken := "TOKEN" }).1.UserID = "0"
    ∧ ((New "donationalerts_key" "donationalerts_secret" "/foo" []).FetchUser
        { NewRequest := fun _ _ => none
          Do := fun _ _ => .ok (json.Text.value (.object []), none) }
        { Session.zero with AccessToken := "TOKEN" }).1.Name = "" := by
  decide

theorem rawData_after_decode (kvs : List (String × json.Value)) (user : User) :
    (decodeUserData (json.Text.value (.object kvs)) user).1.RawData
      = some (json.objectInterface (user.RawData.getD []) kvs).1 := by
  rw [decodeUserData_value]
  cases h1 : (json.decodeMap user.RawData (.object kvs)).2 with
  | some err => rfl
  | none =>
    simp only []
    cases h2 : json.decodeStruct "struct" Profile.setField Profile.zero none (.object kvs) with
    | error x => rfl
    | ok r =>
      obtain ⟨profile, saved⟩ := r
      cases saved <;> rfl

theorem rawData_decoded_without_error (kvs : List (String × json.Value)) (user : User)
    (h : (decodeUserData (json.Text.value (.object kvs)) user).2 = none) :
    (json.objectInterface (user.RawData.getD []) kvs).2 = none := by
  rw [decodeUserData_value] at h
  cases h1 : (json.decodeMap user.RawData (.object kvs)).2 with
  | some err => rw [h1] at h; simp at h
  | none => exact h1

/-- C7 (as amended): after a successful `decodeUserData` of a body that is a
JSON object, `RawData` is a map in which every key of the body has the value the
body gives it (that of its last member of that name) as `encoding/json` stores
it in an `interface{}`: a string, a boolean and `null` as they are, an array
element by element, an object member by member, and a number as the nearest
`float64`, which is the original number for an integer of magnitude up to 2^53
and not for every number.  When the body's `data` is an object,
`RawData["data"]` is a map with every key of `data`, so stored, and no other
key, so a member of `data` that is a string `s`, such as
`socket_connection_token`, is in `RawData["data"]` as the string `s`.  When
`RawData` was nil before the call, as it is in `FetchUser`, it has no key that
the body does not have. -/
theorem decodeUserData_RawData_stored (user : User) (kvs : List (String × json.Value))
    (h : (decodeUserData (json.Text.value (.object kvs)) user).2 = none) :
    ∃ m, (decodeUserData (json.Text.value (.object kvs)) user).1.RawData = some m
      ∧ (∀ k v, json.member kvs k = some v →
          ∃ a, json.mapGet m k = some a ∧ v.decodedAs a)
      ∧ (∀ dkvs, json.member kvs "data" = some (.object dkvs) →
          ∃ dm, json.mapGet m "data" = some (.map dm)
            ∧ (∀ k v, json.member dkvs k = some v →
                ∃ a, json.mapGet dm k = some a ∧ v.decodedAs a)
            ∧ (∀ k s, json.member dkvs k = some (.string s) →
                json.mapGet dm k = some (.string s))
            ∧ (∀ k b, json.member dkvs k = some (.bool b) →
                json.mapGet dm k = some (.bool b))
            ∧ (∀ k, json.member dkvs k = some .null → json.mapGet dm k = some .nil)
            ∧ (∀ k n, json.member dkvs k = some (.number n) →
                json.mapGet dm k = some (.float64 n.toFloat64))
            ∧ (∀ k i, json.member dkvs k = some (.number (json.Number.ofInt i)) →
                i.natAbs ≤ 2 ^ 53 →
                ∃ f, json.mapGet dm k = some (.float64 f) ∧ f.toRat = (i : ℚ))
            ∧ (∀ k, json.member dkvs k = none → json.mapGet dm k = none))
      ∧ (user.RawData = none → ∀ k, json.member kvs k = none → json.mapGet m k = none) := by
  have herr := rawData_decoded_without_error kvs user h
  have hmem := json.objectInterface_decodedAs kvs _ herr
  refine ⟨_, rawData_after_decode kvs user, ?_, ?_, ?_⟩
  · intro k v hv
    exact json.membersDecodedAs_member kvs _ hmem k v hv
  · intro dkvs hd
    obtain ⟨a, ha, hda⟩ := json.membersDecodedAs_member kvs _ hmem "data" _ hd
    simp only [json.Value.decodedAs] at hda
    obtain ⟨dm, rfl, hdm, hno⟩ := hda
    have hleaf : ∀ k v, json.member dkvs k = some v →
        ∃ a, json.mapGet dm k = some a ∧ v.decodedAs a :=
      fun k v hv => json.membersDecodedAs_member dkvs dm hdm k v hv
    refine ⟨dm, ha, hleaf, ?_, ?_, ?_, ?_, ?_, ?_⟩
    · intro k s hs
      obtain ⟨a, h1, h2⟩ := hleaf k _ hs
      simp only [json.Value.decodedAs] at h2
      rw [h1, h2]
    · intro k b hb
      obtain ⟨a, h1, h2⟩ := hleaf k _ hb
      simp only [json.Value.decodedAs] at h2
      rw [h1, h2]
    · intro k hk
      obtain ⟨a, h1, h2⟩ := hleaf k _ hk
      simp only [json.Value.decodedAs] at h2
      rw [h1, h2]
    · intro k n hn
      obtain ⟨a, h1, h2⟩ := hleaf k _ hn
      simp only [json.Value.decodedAs] at h2
      rw [h1, h2]
    · intro k i hi hle
      obtain ⟨a, h1, h2⟩ := hleaf k _ hi
      simp only [json.Value.decodedAs] at h2
      exact ⟨_, by rw [h1, h2], json.toFloat64_integer i hle⟩
    · intro k hk
      exact hno k ((json.member_eq_none_iff dkvs k).mp hk)
  · intro hnone k hk
    rw [json.mapGet_objectInterface, hk, hnone]
    rfl

set_option maxRecDepth 100000 in
set_option exponentiation.threshold 2000 in
/-- The response of the repository's test `TestProvider_FetchUser`, at which
the amended C7 is instantiated: `RawData["data"]["socket_connection_token"]` is
the token of the response, and `RawData["data"]["id"]` is the `float64` 3, that
is 6755399441055744 * 2^-51. -/
theorem decodeUserData_RawData_stored_witness :
    ∃ m dm,
      (decodeUserData (json.Text.value (.object [("data", .object
        [("id", .number (json.Number.ofInt 3)), ("code", .string "tris_the_jam_master"),
         ("name", .string "Tris_the_Jam_Master"),
         ("avatar", .string "https://static-cdn.jtvnw.net/jtv_user_pictures/tris_the_jam_master-profile_image-c084755ce36ab72b-300x300.jpeg"),
         ("email", .string "sergey@donationalerts.com"),
         ("socket_connection_token", .string "yeJ0eXTYOiJKV1RiLCKhbGciOiJIU4.iJIUfeyJzdeyJzd.GciJIUfiOas_FCvQTYAA8usfsTYYFD")])]))
        User.zero).1.RawData = some m
      ∧ json.mapGet m "data" = some (.map dm)
      ∧ json.mapGet dm "socket_connection_token"
          = some (.string "yeJ0eXTYOiJKV1RiLCKhbGciOiJIU4.iJIUfeyJzdeyJzd.GciJIUfiOas_FCvQTYAA8usfsTYYFD")
      ∧ json.mapGet dm "id" = some (.float64 { neg := false, mant := 6755399441055744, exp := -51 })
      ∧ json.mapGet dm "socket_connection_string" = none := by
  obtain ⟨m, hm, _, hdata, _⟩ := decodeUserData_RawData_stored User.zero [("data", .object
        [("id", .number (json.Number.ofInt 3)), ("code", .string "tris_the_jam_master"),
         ("name", .string "Tris_the_Jam_Master"),
         ("avatar", .string "https://static-cdn.jtvnw.net/jtv_user_pictures/tris_the_jam_master-profile_image-c084755ce36ab72b-300x300.jpeg"),
         ("email", .string "sergey@donationalerts.com"),
         ("socket_connection_token", .string "yeJ0eXTYOiJKV1RiLCKhbGciOiJIU4.iJIUfeyJzdeyJzd.GciJIUfiOas_FCvQTYAA8usfsTYYFD")])]
    (by decide)
  obtain ⟨dm, h1, _, h3, _, _, h6, _, h8⟩ := hdata _ rfl
  have hid : (json.Number.ofInt 3).toFloat64
      = { neg := false, mant := 6755399441055744, exp := -51 } := by decide
  refine ⟨m, dm, hm, h1, h3 "socket_connection_token" _ rfl, ?_, h8 _ rfl⟩
  rw [← hid]
  exact h6 "id" _ rfl

set_option maxRecDepth 100000 in
set_option exponentiation.threshold 2000 in
/-- C7 (counterexample): the body `{"data":{"id":9007199254740993}}` is decoded
without error and the `UserID` is "9007199254740993", but `RawData["data"]["id"]`
is the `float64` 4503599627370496 * 2^1, the number 9007199254740992, which is
also what the literal 9007199254740992 is stored as: not the original value. -/
theorem RawData_number_rounded :
    (decodeUserData (json.Text.value (.object [("data", .object
        [("id", .number (json.Number.ofInt 9007199254740993))])])) User.zero).2 = none
    ∧ (decodeUserData (json.Text.value (.object [("data", .object
        [("id", .number (json.Number.ofInt 9007199254740993))])])) User.zero).1.UserID
        = "9007199254740993"
    ∧ (decodeUserData (json.Text.value (.object [("data", .object
        [("id", .number (json.Number.ofInt 9007199254740993))])])) User.zero).1.RawData
        = some [("data", .map [("id", .float64 { neg := false, mant := 4503599627370496, exp := 1 })])]
    ∧ (json.Number.ofInt 9007199254740992).toFloat64
        = { neg := false, mant := 4503599627370496, exp := 1 }
    ∧ json.Float64.toRat { neg := false, mant := 4503599627370496, exp := 1 }
        = 9007199254740992 := by
  refine ⟨by decide, by decide, ?_, by decide, ?_⟩
  · rfl
  · simp only [json.Float64.toRat]
    norm_num

/-! ## Further properties -/

/-- The session `BeginAuth` returns has only `AuthURL` set: no access token, no
refresh token and the zero expiry. -/
theorem BeginAuth_only_AuthURL (p : Provider) (state : String) :
    (p.BeginAuth state).2 = none
    ∧ (p.BeginAuth state).1.AuthURL = p.config.AuthCodeURL state
    ∧ (p.BeginAuth state).1.AccessToken = ""
    ∧ (p.BeginAuth state).1.RefreshToken = ""
    ∧ (p.BeginAuth state).1.ExpiresAt = Time.zero :=
  ⟨rfl, rfl, rfl, rfl, rfl⟩

/-- When the profile request cannot be made or sent, or its body cannot be
read, `FetchUser` returns that error and the zero user. -/
theorem FetchUser_transport_error (net : Network) (p : Provider) (s : Session) (e : Error)
    (h : (p.fetchUserData net s.AccessToken).2 = some e) :
    (p.FetchUser net s).2 = some e
    ∧ (p.FetchUser net s).1.UserID = ""
    ∧ (p.FetchUser net s).1.AccessToken = ""
    ∧ (p.FetchUser net s).1.RawData = none := by
  unfold Provider.FetchUser
  simp [h, User.zero]

/-- A refused connection, at which `FetchUser_transport_error` is instantiated. -/
theorem FetchUser_transport_error_witness :
    ((New "key" "secret" "/cb" []).FetchUser
      { NewRequest := fun _ _ => none
        Do := fun _ _ => .error (Error.external "connection refused") }
      { Session.zero with AccessToken := "TOKEN" }).2
      = some (Error.external "connection refused") :=
  (FetchUser_transport_error
    { NewRequest := fun _ _ => none
      Do := fun _ _ => .error (Error.external "connection refused") }
    (New "key" "secret" "/cb" []) { Session.zero with AccessToken := "TOKEN" }
    (Error.external "connection refused") rfl).1

/-- For a body that is not JSON, and for an empty body, `decodeUserData`
returns the error of the decoder and changes no field of the user. -/
theorem decodeUserData_not_json (user : User) (e : Error) :
    decodeUserData (json.Text.invalid e) user = (user, some e)
    ∧ decodeUserData json.Text.empty user = (user, some Error.EOF) :=
  ⟨rfl, rfl⟩

/-- The request `fetchUserData` sends is a GET of the profile endpoint whose
only header is `Authorization: Bearer` followed by the access token, sent with
the provider's client. -/
theorem fetchUserData_request (net : Network) (p : Provider) (accessToken : String)
    (h : net.NewRequest "GET" p.ProfileEndpoint = none) :
    p.fetchUserData net accessToken =
      match net.Do (HTTPClientWithFallBack p.HTTPClient)
          { Method := "GET", URL := p.ProfileEndpoint,
            Header := [("Authorization", "Bearer " ++ accessToken)] } with
      | .error err => (json.Text.empty, some err)
      | .ok r => r := by
  unfold Provider.fetchUserData
  simp only [h, Provider.Client]
  cases net.Do (HTTPClientWithFallBack p.HTTPClient)
      { Method := "GET", URL := p.ProfileEndpoint,
        Header := [("Authorization", "Bearer " ++ accessToken)] } with
  | error err => rfl
  | ok r => rfl

/-- A network that answers only the request of the repository's test (GET,
`Authorization: Bearer TOKEN`), at which `fetchUserData_request` is
instantiated. -/
theorem fetchUserData_request_witness :
    (New "key" "secret" "/cb" []).fetchUserData
      { NewRequest := fun _ _ => none
        Do := fun _ req =>
          if req.Method = "GET" ∧ req.Header = [("Authorization", "Bearer TOKEN")] then
            .ok (json.Text.value .null, none)
          else .error (Error.external "unexpected request") }
      "TOKEN" = (json.Text.value .null, none) := by
  rw [fetchUserData_request _ _ _ rfl]
  rfl

/-- A provider made by `New` has the key, secret and callback URL given, the
name `donationalerts`, the fixed profile endpoint and no client of its own;
`SetName` changes the name and nothing else; a refresh token is always
reported as available. -/
theorem New_fields (clientKey secret callbackURL name : String) (scopes : List String) :
    (New clientKey secret callbackURL scopes).ClientKey = clientKey
    ∧ (New clientKey secret callbackURL scopes).Secret = secret
    ∧ (New clientKey secret callbackURL scopes).CallbackURL = callbackURL
    ∧ (New clientKey secret callbackURL scopes).Name = "donationalerts"
    ∧ (New clientKey secret callbackURL scopes).ProfileEndpoint
        = "https://www.donationalerts.com/api/v1/user/oauth"
    ∧ (New clientKey secret callbackURL scopes).Client = DefaultClient
    ∧ (New clientKey secret callbackURL scopes).config.ClientID = clientKey
    ∧ (New clientKey secret callbackURL scopes).config.ClientSecret = secret
    ∧ (New clientKey secret callbackURL scopes).config.RedirectURL = callbackURL
    ∧ (New clientKey secret callbackURL scopes).config.Endpoint
        = { AuthURL := "https://www.donationalerts.com/oauth/authorize",
            TokenURL := "https://www.donationalerts.com/oauth/token" }
    ∧ ((New clientKey secret callbackURL scopes).SetName name).Name = name
    ∧ ((New clientKey secret callbackURL scopes).SetName name).config
        = (New clientKey secret callbackURL scopes).config
    ∧ (New clientKey secret callbackURL scopes).RefreshTokenAvailable = true := by
  simp [New, newConfig_eq, Provider.Name, Provider.SetName, Provider.Client,
    HTTPClientWithFallBack, Provider.RefreshTokenAvailable, profileEndpoint, authEndpoint,
    tokenEndpoint]

/-- A text that is not JSON, and the empty text, give `UnmarshalSession` an
error and the zero session. -/
theorem UnmarshalSession_not_json (p : Provider) (e : Error) :
    p.UnmarshalSession (json.Text.invalid e) = (Session.zero, some e)
    ∧ p.UnmarshalSession json.Text.empty = (Session.zero, some Error.EOF) :=
  ⟨rfl, rfl⟩

end donationalerts
